import Mathlib

/-!
Verification development for the survey Jetstream consumer
(OpenMeet-Team/survey), consumer core: record decoding
(`internal/consumer/atproto.go`), cursor store (`cursor.go`),
and the processor/stream-client behaviour described in the design
document.

Go's `map[string]interface{}` record payloads are embedded as the
inductive `GoVal`; objects are association lists with unique keys
(lookup takes the first match, as a Go map has at most one entry per
key). Go type assertions `v.(T)` become partial projections returning
`Option`. `fmt.Errorf` failure sites become constructors of `ParseErr`,
one per call site, carrying the same loop indices the Go format strings
interpolate.
-/

/-- A dynamically-typed value as delivered to the consumer after JSON
decoding (Go `interface{}`). -/
inductive GoVal where
  | str  (s : String)
  | bool (b : Bool)
  | num  (n : Int)
  | arr  (elems : List GoVal)
  | obj  (fields : List (String × GoVal))
  | null
deriving Repr

/-- Field lookup in a record (Go `record[key]`, present or not). -/
def getVal (fields : List (String × GoVal)) (key : String) : Option GoVal :=
  match fields with
  | [] => none
  | (k, v) :: rest => if k = key then some v else getVal rest key

/-- Go two-valued type assertion `record[key].(string)`. -/
def getStr (fields : List (String × GoVal)) (key : String) : Option String :=
  match getVal fields key with
  | some (.str s) => some s
  | _ => none

/-- Go two-valued type assertion `record[key].(bool)`. -/
def getBool (fields : List (String × GoVal)) (key : String) : Option Bool :=
  match getVal fields key with
  | some (.bool b) => some b
  | _ => none

/-- Go two-valued type assertion `record[key].([]interface{})`. -/
def getArr (fields : List (String × GoVal)) (key : String) : Option (List GoVal) :=
  match getVal fields key with
  | some (.arr xs) => some xs
  | _ => none

/-- Go two-valued type assertion `record[key].(map[string]interface{})`. -/
def getObj (fields : List (String × GoVal)) (key : String) : Option (List (String × GoVal)) :=
  match getVal fields key with
  | some (.obj o) => some o
  | _ => none

/-! ### Domain models (`internal/models`, as used by `atproto.go`) -/

/-- `models.Option`: one selectable option of a choice question. -/
structure SurveyOption where
  id : String
  text : String
deriving Repr, DecidableEq

/-- `models.Question`. `qtype` embeds the Go field `Type`
(`models.QuestionType`, a string). -/
structure Question where
  id : String
  text : String
  qtype : String
  required : Bool
  options : List SurveyOption
deriving Repr, DecidableEq

/-- `models.SurveyDefinition` (the fields `ParseSurveyRecord` fills). -/
structure SurveyDefinition where
  questions : List Question
  anonymous : Bool
deriving Repr, DecidableEq

/-- `models.Answer`: a voter's answer to one question. In Go,
`SelectedOptions` starts as a nil slice and `Text` as `""`. -/
structure Answer where
  selectedOptions : List String
  text : String
deriving Repr, DecidableEq

/-- Every `fmt.Errorf` site of `atproto.go`, one constructor per site,
carrying the loop indices the Go message interpolates. -/
inductive ParseErr where
  | surveyNameRequired
  | surveyNeedsQuestion
  | questionNotObject (i : Nat)
  | questionIdRequired (i : Nat)
  | questionTextRequired (i : Nat)
  | questionTypeRequired (i : Nat)
  | optionNotObject (i j : Nat)
  | optionIdRequired (i j : Nat)
  | optionTextRequired (i j : Nat)
  | subjectRequired
  | subjectUriRequired
  | answersRequired
  | answerNotObject (i : Nat)
  | answerQuestionIdRequired (i : Nat)
  | answerSelectedNotArray (i : Nat)
  | answerOptionNotString (i j : Nat)
  | answerTextNotString (i : Nat)
deriving Repr, DecidableEq

/-! ### `stripTokenPrefix` (atproto.go:136-143)

Go: `strings.Split(tokenType, "#")`, take the last part when the split
produced more than one. `splitHash` is `strings.Split` specialised to
the one-character separator `#` (same semantics: n separators yield
n+1 parts, empty parts kept). -/

/-- `strings.Split(s, "#")` on a character list. -/
def splitHash : List Char → List (List Char)
  | [] => [[]]
  | c :: cs =>
    match splitHash cs with
    | [] => [[]]
    | h :: t => if c = '#' then [] :: h :: t else (c :: h) :: t

/-- `stripTokenPrefix`: "net.openmeet.survey#single" → "single";
a string without `#` is returned unchanged. -/
def stripTokenPrefix (tokenType : String) : String :=
  let parts := splitHash tokenType.data
  if parts.length > 1 then String.mk (parts.getLastD []) else tokenType

/-! ### `parseOption` / `parseQuestion` / `ParseSurveyRecord` (atproto.go:13-133) -/

/-- `parseOption` (atproto.go:118-133). -/
def parseOption (optObj : List (String × GoVal)) (qIndex optIndex : Nat) :
    Except ParseErr SurveyOption :=
  match getStr optObj "id" with
  | none => .error (.optionIdRequired qIndex optIndex)
  | some id =>
    if id = "" then .error (.optionIdRequired qIndex optIndex)
    else
      match getStr optObj "text" with
      | none => .error (.optionTextRequired qIndex optIndex)
      | some text =>
        if text = "" then .error (.optionTextRequired qIndex optIndex)
        else .ok { id := id, text := text }

/-- The options loop of `parseQuestion` (atproto.go:92-106): `qIndex` is
the enclosing question's index, `j` the current option index. -/
def parseOptionList (qIndex : Nat) : Nat → List GoVal → Except ParseErr (List SurveyOption)
  | _, [] => .ok []
  | j, o :: rest =>
    match o with
    | .obj optObj =>
      match parseOption optObj qIndex j with
      | .error e => .error e
      | .ok opt =>
        match parseOptionList qIndex (j + 1) rest with
        | .error e => .error e
        | .ok opts => .ok (opt :: opts)
    | _ => .error (.optionNotObject qIndex j)

/-- `parseQuestion` (atproto.go:62-115). Note the Go quirk: the
`options` field is read with a combined presence-and-type assertion
`qObj["options"].([]interface{})`, so an `options` field that is not an
array is silently ignored, not an error. -/
def parseQuestion (qObj : List (String × GoVal)) (index : Nat) :
    Except ParseErr Question :=
  match getStr qObj "id" with
  | none => .error (.questionIdRequired index)
  | some id =>
    if id = "" then .error (.questionIdRequired index)
    else
      match getStr qObj "text" with
      | none => .error (.questionTextRequired index)
      | some text =>
        if text = "" then .error (.questionTextRequired index)
        else
          match getStr qObj "type" with
          | none => .error (.questionTypeRequired index)
          | some typeRaw =>
            if typeRaw = "" then .error (.questionTypeRequired index)
            else
              let questionType := stripTokenPrefix typeRaw
              let required := (getBool qObj "required").getD false
              match getArr qObj "options" with
              | none =>
                .ok { id := id, text := text, qtype := questionType,
                      required := required, options := [] }
              | some optionsRaw =>
                match parseOptionList index 0 optionsRaw with
                | .error e => .error e
                | .ok options =>
                  .ok { id := id, text := text, qtype := questionType,
                        required := required, options := options }

/-- The questions loop of `ParseSurveyRecord` (atproto.go:39-51);
`i` is the index of the first element of the remaining list. -/
def parseQuestionList : Nat → List GoVal → Except ParseErr (List Question)
  | _, [] => .ok []
  | i, q :: rest =>
    match q with
    | .obj qObj =>
      match parseQuestion qObj i with
      | .error e => .error e
      | .ok question =>
        match parseQuestionList (i + 1) rest with
        | .error e => .error e
        | .ok questions => .ok (question :: questions)
    | _ => .error (.questionNotObject i)

/-- `ParseSurveyRecord` (atproto.go:13-59). Returns the survey
definition together with the external `name` (which the caller stores
as the internal title) and the optional description. -/
def ParseSurveyRecord (record : List (String × GoVal)) :
    Except ParseErr (SurveyDefinition × String × String) :=
  match getStr record "name" with
  | none => .error .surveyNameRequired
  | some name =>
    if name = "" then .error .surveyNameRequired
    else
      let description := (getStr record "description").getD ""
      let anonymous := (getBool record "anonymous").getD false
      match getArr record "questions" with
      | none => .error .surveyNeedsQuestion
      | some [] => .error .surveyNeedsQuestion
      | some questionsRaw =>
        match parseQuestionList 0 questionsRaw with
        | .error e => .error e
        | .ok questions =>
          .ok ({ questions := questions, anonymous := anonymous }, name, description)

/-! ### `ParseResponseRecord` (atproto.go:147-208) -/

/-- Go map assignment `m[k] = v` on an association list whose keys are
unique: replaces in place, or appends a fresh key at the end. -/
def mapUpsert : List (String × Answer) → String → Answer → List (String × Answer)
  | [], k, v => [(k, v)]
  | (k', v') :: rest, k, v =>
    if k' = k then (k', v) :: rest else (k', v') :: mapUpsert rest k v

/-- The `selectedOptions` element loop (atproto.go:186-192): every
element must be a string. -/
def parseSelectedList (i : Nat) : Nat → List GoVal → Except ParseErr (List String)
  | _, [] => .ok []
  | j, o :: rest =>
    match o with
    | .str optID =>
      match parseSelectedList i (j + 1) rest with
      | .error e => .error e
      | .ok opts => .ok (optID :: opts)
    | _ => .error (.answerOptionNotString i j)

/-- One iteration of the answers loop (atproto.go:166-205). Unlike the
question `options` field, `selectedOptions` and `text` use a presence
check first and a separate type assertion, so a present field of the
wrong type is an error. -/
def parseAnswer (ansObj : List (String × GoVal)) (i : Nat) :
    Except ParseErr (String × Answer) :=
  match getStr ansObj "questionId" with
  | none => .error (.answerQuestionIdRequired i)
  | some questionID =>
    if questionID = "" then .error (.answerQuestionIdRequired i)
    else
      match getVal ansObj "selectedOptions" with
      | some selectedRaw =>
        match selectedRaw with
        | .arr selectedArr =>
          match parseSelectedList i 0 selectedArr with
          | .error e => .error e
          | .ok selected =>
            match getVal ansObj "text" with
            | some textRaw =>
              match textRaw with
              | .str textStr => .ok (questionID, { selectedOptions := selected, text := textStr })
              | _ => .error (.answerTextNotString i)
            | none => .ok (questionID, { selectedOptions := selected, text := "" })
        | _ => .error (.answerSelectedNotArray i)
      | none =>
        match getVal ansObj "text" with
        | some textRaw =>
          match textRaw with
          | .str textStr => .ok (questionID, { selectedOptions := [], text := textStr })
          | _ => .error (.answerTextNotString i)
        | none => .ok (questionID, { selectedOptions := [], text := "" })

/-- The answers loop of `ParseResponseRecord` (atproto.go:165-205),
building the Go map `answers` by assignment in array order. -/
def parseAnswerList (i : Nat) (acc : List (String × Answer)) :
    List GoVal → Except ParseErr (List (String × Answer))
  | [] => .ok acc
  | a :: rest =>
    match a with
    | .obj ansObj =>
      match parseAnswer ansObj i with
      | .error e => .error e
      | .ok (qid, answer) => parseAnswerList (i + 1) (mapUpsert acc qid answer) rest
    | _ => .error (.answerNotObject i)

/-- `ParseResponseRecord` (atproto.go:147-208): yields the referenced
survey URI and the questionID → Answer map. The voter identity is not
part of the result — the record body is never consulted for it. -/
def ParseResponseRecord (record : List (String × GoVal)) :
    Except ParseErr (String × List (String × Answer)) :=
  match getObj record "subject" with
  | none => .error .subjectRequired
  | some subject =>
    match getStr subject "uri" with
    | none => .error .subjectUriRequired
    | some surveyURI =>
      if surveyURI = "" then .error .subjectUriRequired
      else
        match getArr record "answers" with
        | none => .error .answersRequired
        | some [] => .error .answersRequired
        | some answersRaw =>
          match parseAnswerList 0 [] answersRaw with
          | .error e => .error e
          | .ok answers => .ok (surveyURI, answers)

/-- `ParseResultsRecord` (atproto.go:241-255): only the subject URI is
extracted; the results payload itself is not parsed. -/
def ParseResultsRecord (record : List (String × GoVal)) : Except ParseErr String :=
  match getObj record "subject" with
  | none => .error .subjectRequired
  | some subject =>
    match getStr subject "uri" with
    | none => .error .subjectUriRequired
    | some surveyURI =>
      if surveyURI = "" then .error .subjectUriRequired
      else .ok surveyURI

/-! ### `GenerateSlugFromTitle` (atproto.go:212-237)

Strings are modelled at rune (Char) level. `strings.ToLower` is
modelled by its ASCII case mapping: every rune outside `[a-z0-9]` is
collapsed into a hyphen run by the following regex replacement, so the
mapping of non-ASCII letters is immaterial here. After the replacement
the string is pure ASCII, so Go's byte-indexed `len` and `slug[:50]`
coincide with the rune-level model. -/

/-- ASCII case mapping of `strings.ToLower`. -/
def goToLower (c : Char) : Char :=
  if 'A' ≤ c ∧ c ≤ 'Z' then Char.ofNat (c.toNat + 32) else c

/-- Membership in the regex class `[a-z0-9]` (the complement of
`slugRegex`'s class `[^a-z0-9]`). -/
def isSlugAlnum (c : Char) : Bool :=
  ('a' ≤ c && c ≤ 'z') || ('0' ≤ c && c ≤ '9')

/-- `dropWhile` never lengthens a list (used for termination of
`replaceRuns`). -/
theorem dropWhile_length_le {α : Type} (p : α → Bool) (l : List α) :
    (l.dropWhile p).length ≤ l.length := by
  induction l with
  | nil => simp
  | cons a l ih =>
    rw [List.dropWhile_cons]
    split
    · exact Nat.le_succ_of_le ih
    · simp

/-- `slugRegex.ReplaceAllString(slug, "-")`, one character at a time:
`inRun` records whether the previous character belonged to a non-
alphanumeric run, so each maximal run emits exactly one hyphen. -/
def replaceRunsAux : Bool → List Char → List Char
  | _, [] => []
  | inRun, c :: cs =>
    if isSlugAlnum c then c :: replaceRunsAux false cs
    else if inRun then replaceRunsAux true cs
    else '-' :: replaceRunsAux true cs

/-- `slugRegex.ReplaceAllString(slug, "-")`: each maximal run of
characters outside `[a-z0-9]` becomes a single hyphen. -/
def replaceRuns (l : List Char) : List Char := replaceRunsAux false l

/-- `strings.TrimRight(slug, "-")`. -/
def trimTrailHyphens (l : List Char) : List Char :=
  (l.reverse.dropWhile (fun c => c = '-')).reverse

/-- `strings.Trim(slug, "-")`. -/
def goTrimHyphens (l : List Char) : List Char :=
  trimTrailHyphens (l.dropWhile (fun c => c = '-'))

/-- `GenerateSlugFromTitle` (atproto.go:214-237): lowercase, collapse
non-alphanumeric runs to hyphens, trim hyphens at both ends, prefix
`"survey-"` below 3 characters, truncate at 50 trimming a trailing
hyphen the cut may leave. -/
def GenerateSlugFromTitle (title : String) : String :=
  let slug := title.data.map goToLower
  let slug := replaceRuns slug
  let slug := goTrimHyphens slug
  let slug := if slug.length < 3 then "survey-".data ++ slug else slug
  let slug := if slug.length > 50 then trimTrailHyphens (slug.take 50) else slug
  String.mk slug

/-! ### Cursor store (`cursor.go`: GetCursor / UpdateCursor)

The `jetstream_cursor` table holds at most the singleton row `id = 1`;
it is modelled as `Option Int` (`some timeUs` when the row exists).
`q.GetDB()` binds both functions to the caller-supplied scope (plain
connection or open transaction), so they act on whatever table state
that scope sees; the `updated_at` column is not modelled (never read).
Errors are the exact Go error strings. -/

/-- `GetCursor` (cursor.go): `SELECT time_us FROM jetstream_cursor
WHERE id = 1`; `sql.ErrNoRows` becomes the not-found error. -/
def GetCursor (table : Option Int) : Except String Int :=
  match table with
  | none => .error "cursor row not found (id=1 should exist)"
  | some timeUs => .ok timeUs

/-- `UpdateCursor` (cursor.go): `UPDATE jetstream_cursor SET time_us =
$1 ... WHERE id = 1`; zero rows affected is an error and nothing is
inserted. Returns the outcome together with the table state the scope
sees afterwards. -/
def UpdateCursor (table : Option Int) (timeUs : Int) :
    Except String Unit × Option Int :=
  match table with
  | none => (.error "cursor row not found (expected id=1)", none)
  | some _ => (.ok (), some timeUs)

/-! ### Stream Client backoff -/

/-- Modelled from the spec: the Stream Client reconnect loop
(`jetstream.go`) is not in the source snapshot; §4.4/§8 of the design
document and the consumer README ("Automatic reconnection -
Exponential backoff (1s → 60s max)") fix the policy: the wait starts
at 1s, doubles on each consecutive failure, caps at 60s, and a
successful streaming period resets it to 1s. -/
inductive ConnEvent where
  | failure
  | success
deriving Repr, DecidableEq

/-- Initial backoff wait, in seconds. -/
def initialBackoffS : Nat := 1

/-- Backoff cap, in seconds. -/
def maxBackoffS : Nat := 60

/-- Doubling with cap: the wait pending after one more failure. -/
def nextBackoff (b : Nat) : Nat := min (b * 2) maxBackoffS

/-- One step of the reconnect loop's backoff state: on a failure the
client waits the pending interval and doubles it (capped); on a
successful streaming period the pending interval resets. Returns the
emitted wait (if any) and the new pending interval. -/
def backoffStep (b : Nat) : ConnEvent → Option Nat × Nat
  | .failure => (some b, nextBackoff b)
  | .success => (none, initialBackoffS)

/-- Run the backoff state machine, collecting the emitted waits. -/
def backoffRun (b : Nat) : List ConnEvent → List Nat × Nat
  | [] => ([], b)
  | e :: es =>
    ((backoffStep b e).1.toList ++ (backoffRun (backoffStep b e).2 es).1,
     (backoffRun (backoffStep b e).2 es).2)

/-- The wait served on the (n+1)-st consecutive failure after a reset. -/
def waitAfterFailures : Nat → Nat
  | 0 => initialBackoffS
  | n + 1 => nextBackoff (waitAfterFailures n)

/-! ### Message Processor

Modelled from the spec: `processor.go` (the Message Processor: routing,
authorization, transactional apply) is not in the source snapshot; the
model below follows §3, §4.3 and §7 of the design document, calling the
real decoders (`ParseSurveyRecord`, `ParseResponseRecord`,
`ParseResultsRecord`, `GenerateSlugFromTitle`) embedded above from
`atproto.go`. A transaction is all-or-nothing: `storageUp = true` means
the storage commit succeeds, `storageUp = false` means any commit
attempt fails and the whole transaction rolls back. -/

/-- The collections the consumer subscribes to, plus anything else. -/
inductive Collection where
  | survey
  | response
  | results
  | unknown
deriving Repr, DecidableEq

/-- Create / update / delete, from the event envelope's `operation`. -/
inductive EvOp where
  | create
  | update
  | delete
deriving Repr, DecidableEq

/-- A decoded stream event envelope (spec §3 StreamEvent): collection,
operation, authenticated repository, record key, sequence, and the raw
record payload (absent for deletes). -/
structure StreamEvent where
  collection : Collection
  operation : EvOp
  repo : String
  rkey : String
  seq : Int
  payload : Option (List (String × GoVal))
deriving Repr

/-- A stored survey row (spec §3 SurveyDefinition plus ownership and
the derived slug). -/
structure SurveyRow where
  repo : String
  rkey : String
  title : String
  description : String
  anonymous : Bool
  questions : List Question
  slug : String
deriving Repr, DecidableEq

/-- A stored response row (spec §3 Response); `voterDid` comes from the
event envelope's authenticated repository, `rkey` is the response
record's own key (used by Response Delete). -/
structure ResponseRow where
  voterDid : String
  surveyURI : String
  rkey : String
  answers : List (String × Answer)
deriving Repr, DecidableEq

/-- The consumer's relational store: survey rows, response rows,
results-publication markers (by survey URI), and the cursor row. -/
structure Store where
  surveys : List SurveyRow
  responses : List ResponseRow
  results : List String
  cursor : Int
deriving Repr, DecidableEq

/-- The at-URI under which a survey record lives, the form response
records reference in `subject.uri`. -/
def surveyURI (repo rkey : String) : String :=
  "at://" ++ repo ++ "/net.openmeet.survey/" ++ rkey

/-- Resolve a `subject.uri` to the stored survey it references
(spec §4.3: "resolve `subject.uri` to an internal survey id"). -/
def resolveSurvey (rows : List SurveyRow) (uri : String) : Option SurveyRow :=
  rows.find? (fun s => surveyURI s.repo s.rkey == uri)

/-- The survey the owning repository `repo` has at record key `rkey`
(spec §4.3 Survey Create's already-exists check). -/
def findSurvey (rows : List SurveyRow) (repo rkey : String) : Option SurveyRow :=
  rows.find? (fun s => s.repo == repo && s.rkey == rkey)

/-- The survey stored at record key `rkey`, whatever its owner — the
lookup against which Survey Update/Delete's authorization check
compares the event's authenticated repository (spec §4.3). -/
def findSurveyByKey (rows : List SurveyRow) (rkey : String) : Option SurveyRow :=
  rows.find? (fun s => s.rkey == rkey)

/-- Is `slug` already reserved by a stored survey? -/
def slugTaken (rows : List SurveyRow) (slug : String) : Bool :=
  rows.any (fun s => s.slug == slug)

/-- Collision policy (spec §4.1): the base slug, else `base-2`,
`base-3`, … until unique; with `n` stored surveys some candidate among
the first `n + 2` is free, so the search is bounded. -/
def freshSlug (rows : List SurveyRow) (base : String) : String :=
  match (List.range (rows.length + 2)).find?
      (fun k => !slugTaken rows (if k = 0 then base else base ++ "-" ++ toString (k + 1))) with
  | some k => if k = 0 then base else base ++ "-" ++ toString (k + 1)
  | none => base

/-- Overwrite a stored survey's mutable fields (title, description,
anonymous flag, questions); the slug is not regenerated (spec §4.3
Survey Update). -/
def overwriteSurvey (rows : List SurveyRow) (repo rkey title description : String)
    (anonymous : Bool) (questions : List Question) : List SurveyRow :=
  rows.map (fun s =>
    if s.repo == repo && s.rkey == rkey then
      { s with title := title, description := description,
               anonymous := anonymous, questions := questions }
    else s)

/-- Upsert on (voter identity, survey): replace the existing row for
the same pair, never add a second one (spec §4.3 Response
Create/Update, the duplicate-vote-prevention invariant). -/
def upsertResponse : List ResponseRow → ResponseRow → List ResponseRow
  | [], r => [r]
  | x :: xs, r =>
    if x.voterDid == r.voterDid && x.surveyURI == r.surveyURI then r :: xs
    else x :: upsertResponse xs r

/-- Survey Create/Update data mutation, after a successful payload
decode: `none` is a permanent rejection (authorization failure),
`some` the mutated survey table (spec §4.3). -/
def applySurveyWrite (s : Store) (ev : StreamEvent) (parsed : SurveyDefinition × String × String) :
    Option (List SurveyRow) :=
  let (def_, name, description) := parsed
  match ev.operation with
  | .create =>
    match findSurvey s.surveys ev.repo ev.rkey with
    | some _ =>
      -- repository already has a survey at that key: idempotent repair,
      -- treated as an update of the mutable fields
      some (overwriteSurvey s.surveys ev.repo ev.rkey name description
              def_.anonymous def_.questions)
    | none =>
      some (s.surveys ++ [{ repo := ev.repo, rkey := ev.rkey, title := name,
                            description := description, anonymous := def_.anonymous,
                            questions := def_.questions,
                            slug := freshSlug s.surveys (GenerateSlugFromTitle name) }])
  | .update =>
    match findSurveyByKey s.surveys ev.rkey with
    | none => none        -- no such survey: validation failure, skipped
    | some row =>
      if row.repo == ev.repo then
        some (overwriteSurvey s.surveys row.repo ev.rkey name description
                def_.anonymous def_.questions)
      else none            -- authorization failure: non-owner repository
  | .delete => none        -- unreachable: deletes carry no payload

/-- The data mutation of one event against the current store: `none`
is a permanent rejection (decode/validation error, authorization
failure) that becomes a deliberate no-op; `some s'` is the mutated
store, cursor untouched (spec §4.3, §7). -/
def attemptMutation (s : Store) (ev : StreamEvent) : Option Store :=
  match ev.collection with
  | .unknown => some s     -- ignored, counted, cursor still advances
  | .survey =>
    match ev.operation with
    | .delete =>
      match findSurveyByKey s.surveys ev.rkey with
      | none => some s     -- idempotent: already absent
      | some row =>
        if row.repo == ev.repo then
          some { s with surveys := s.surveys.filter (fun x => !(x.rkey == ev.rkey)) }
        else none          -- authorization failure
    | _ =>
      match ev.payload with
      | none => none       -- malformed event: create/update without a record
      | some record =>
        match ev.operation, findSurveyByKey s.surveys ev.rkey with
        | .update, none => none       -- no such survey: validation failure
        | .update, some row =>
          if row.repo == ev.repo then
            match ParseSurveyRecord record with
            | .error _ => none        -- decode/validation error
            | .ok parsed => (applySurveyWrite s ev parsed).map (fun t => { s with surveys := t })
          else none                   -- authorization failure, checked before decode
        | _, _ =>
          match ParseSurveyRecord record with
          | .error _ => none          -- decode/validation error
          | .ok parsed => (applySurveyWrite s ev parsed).map (fun t => { s with surveys := t })
  | .response =>
    match ev.operation with
    | .delete =>
      some { s with responses :=
        s.responses.filter (fun r => !(r.voterDid == ev.repo && r.rkey == ev.rkey)) }
    | _ =>
      match ev.payload with
      | none => none
      | some record =>
        match ParseResponseRecord record with
        | .error _ => none            -- decode/validation error
        | .ok (uri, answers) =>
          match resolveSurvey s.surveys uri with
          | none => none              -- unresolved subject: validation failure
          | some _ =>
            let row : ResponseRow :=
              { voterDid := ev.repo, surveyURI := uri,
                rkey := ev.rkey, answers := answers }
            some { s with responses := upsertResponse s.responses row }
  | .results =>
    match ev.operation with
    | .delete => some s               -- not specified beyond the marker; no-op
    | _ =>
      match ev.payload with
      | none => none
      | some record =>
        match ParseResultsRecord record with
        | .error _ => none            -- decode/validation error
        | .ok uri =>
          match resolveSurvey s.surveys uri with
          | none => none              -- unresolved subject: validation failure
          | some _ =>
            some { s with results :=
              if s.results.contains uri then s.results else s.results ++ [uri] }

/-- One event processed under the atomicity invariant (spec §4.3): the
data mutation (or deliberate no-op on permanent rejection) and the
cursor advance to the event's sequence commit together in one
transaction; if storage is unavailable the transaction rolls back
entirely and the store — cursor included — is unchanged. -/
def applyEvent (storageUp : Bool) (s : Store) (ev : StreamEvent) : Store :=
  if storageUp then
    match attemptMutation s ev with
    | none => { s with cursor := ev.seq }
    | some s' => { s' with cursor := ev.seq }
  else s

/-- Does the event's payload fail to decode for its collection
(a permanent decode/validation error, spec §7 taxonomy (b))? -/
def eventDecodeFails (ev : StreamEvent) : Bool :=
  match ev.collection, ev.operation with
  | .survey, .create | .survey, .update =>
    match ev.payload with
    | none => true
    | some record =>
      match ParseSurveyRecord record with
      | .error _ => true
      | .ok _ => false
  | .response, .create | .response, .update =>
    match ev.payload with
    | none => true
    | some record =>
      match ParseResponseRecord record with
      | .error _ => true
      | .ok _ => false
  | .results, .create | .results, .update =>
    match ev.payload with
    | none => true
    | some record =>
      match ParseResultsRecord record with
      | .error _ => true
      | .ok _ => false
  | _, _ => false

/-- Is the event a Survey Update/Delete whose authenticated repository
differs from the stored owner (a permanent authorization failure,
spec §7 taxonomy (c))? -/
def authFailure (s : Store) (ev : StreamEvent) : Bool :=
  match ev.collection, ev.operation with
  | .survey, .update | .survey, .delete =>
    match findSurveyByKey s.surveys ev.rkey with
    | none => false
    | some row => !(row.repo == ev.repo)
  | _, _ => false

/-! ## Claims -/

/-- `trimTrailHyphens` never lengthens a list. -/
theorem trimTrailHyphens_length_le (l : List Char) :
    (trimTrailHyphens l).length ≤ l.length := by
  unfold trimTrailHyphens
  have h := dropWhile_length_le (fun c => c = '-') l.reverse
  simpa using h

/-- The final truncation stage of `GenerateSlugFromTitle` always lands
at or under the 50-character maximum. -/
theorem slugTruncationBound (l : List Char) :
    (if l.length > 50 then trimTrailHyphens (l.take 50) else l).length ≤ 50 := by
  split
  · refine le_trans (trimTrailHyphens_length_le _) ?_
    simp [List.length_take]
  · omega

/-- Claim C8: `GetCursor` fails with a not-found error on an absent
singleton row; `UpdateCursor` fails without inserting when the row is
absent; after a successful `UpdateCursor v` a `GetCursor` in the same
scope returns `v` for every `v`, including values smaller than the
stored cursor — the store performs no monotonicity validation. -/
theorem c8_cursor_store_contract :
    GetCursor none = .error "cursor row not found (id=1 should exist)" ∧
    (∀ v : Int, UpdateCursor none v = (.error "cursor row not found (expected id=1)", none)) ∧
    (∀ t v : Int, UpdateCursor (some t) v = (.ok (), some v) ∧
      GetCursor (UpdateCursor (some t) v).2 = .ok v) ∧
    (∀ t v : Int, v < t → GetCursor (UpdateCursor (some t) v).2 = .ok v) :=
  ⟨rfl, fun _ => rfl, fun _ _ => ⟨rfl, rfl⟩, fun _ _ _ => rfl⟩

/-- Witness for C8 at a concrete regression: cursor 5 set back to 3. -/
theorem c8_cursor_store_contract_witness :
    GetCursor (UpdateCursor (some 5) 3).2 = .ok 3 :=
  c8_cursor_store_contract.2.2.2 5 3 (by decide)

/-- Claim C5: `GenerateSlugFromTitle` lowercases, collapses
non-alphanumeric runs to single hyphens, trims edge hyphens, prefixes
the `"survey-"` literal below 3 characters, and truncates to the
50-character maximum trimming a hyphen the cut leaves: every slug is
at most 50 characters; `"Team Meeting"` gives `"team-meeting"`;
`"??"` gives the prefixed fallback `"survey-"` (7 ≥ 3 characters); a
60-character title gives a ≤ 50-character slug with no trailing
hyphen. -/
theorem c5_slug_generation :
    (∀ title : String, (GenerateSlugFromTitle title).length ≤ 50) ∧
    GenerateSlugFromTitle "Team Meeting" = "team-meeting" ∧
    (GenerateSlugFromTitle "??" = "survey-" ∧ 3 ≤ (GenerateSlugFromTitle "??").length) ∧
    (("aaaaaaaaaaaaaaaaaaaaaaaaaaaaaaaaaaaaaaaaaaaaaaaaa-bbbbbbbbbb" : String).length = 60 ∧
     GenerateSlugFromTitle "aaaaaaaaaaaaaaaaaaaaaaaaaaaaaaaaaaaaaaaaaaaaaaaaa-bbbbbbbbbb" =
       "aaaaaaaaaaaaaaaaaaaaaaaaaaaaaaaaaaaaaaaaaaaaaaaaa" ∧
     (GenerateSlugFromTitle "aaaaaaaaaaaaaaaaaaaaaaaaaaaaaaaaaaaaaaaaaaaaaaaaa-bbbbbbbbbb").length ≤ 50 ∧
     (GenerateSlugFromTitle "aaaaaaaaaaaaaaaaaaaaaaaaaaaaaaaaaaaaaaaaaaaaaaaaa-bbbbbbbbbb").data.getLast?
       ≠ some '-') := by
  refine ⟨?_, by decide, ⟨by decide, by decide⟩, by decide, by decide, by decide, by decide⟩
  intro title
  unfold GenerateSlugFromTitle
  simp only [String.length]
  exact slugTruncationBound _

/-- Claim C4 counterexample: an answer object carrying only a
`questionId` decodes successfully to an `Answer` whose selected-option
list and free-text value are both empty, so a successful decode does
not guarantee one populated field. -/
theorem c4_counterexample :
    ParseResponseRecord
      [("subject", .obj [("uri", .str "at://alice/net.openmeet.survey/s1")]),
       ("answers", .arr [.obj [("questionId", .str "q1")]])] =
      .ok ("at://alice/net.openmeet.survey/s1", [("q1", ⟨[], ""⟩)]) ∧
    Answer.selectedOptions ⟨[], ""⟩ = [] ∧ Answer.text ⟨[], ""⟩ = "" :=
  ⟨rfl, rfl, rfl⟩

/-- Claim C4 as amended: the decoder enforces no populated-field
requirement — whenever an answer object has a non-empty `questionId`
and neither a `selectedOptions` nor a `text` field, it decodes to the
`Answer` with an empty option list and empty text. -/
theorem c4_amended_empty_answer_allowed (ansObj : List (String × GoVal)) (i : Nat)
    (qid : String) (hqid : getStr ansObj "questionId" = some qid) (hne : qid ≠ "")
    (hsel : getVal ansObj "selectedOptions" = none)
    (htext : getVal ansObj "text" = none) :
    parseAnswer ansObj i = .ok (qid, ⟨[], ""⟩) := by
  unfold parseAnswer
  rw [hqid, hsel, htext]
  simp [hne]

/-- Witness for the amended C4 at the concrete one-field answer. -/
theorem c4_amended_empty_answer_allowed_witness :
    parseAnswer [("questionId", .str "q1")] 0 = .ok ("q1", ⟨[], ""⟩) :=
  c4_amended_empty_answer_allowed _ 0 "q1" rfl (by decide) rfl rfl

/-! ### Go map lemmas for the decoded answers (C10) -/

/-- Go map read `m[k]` on the association-list model. -/
def lookupAnswer (m : List (String × Answer)) (q : String) : Option Answer :=
  match m with
  | [] => none
  | (k, a) :: rest => if k = q then some a else lookupAnswer rest q

/-- Reading after a Go map assignment: the assigned key sees the new
value, every other key is untouched. -/
theorem lookupAnswer_mapUpsert (m : List (String × Answer)) (k : String) (v : Answer)
    (q : String) :
    lookupAnswer (mapUpsert m k v) q = if k = q then some v else lookupAnswer m q := by
  induction m with
  | nil => rfl
  | cons p rest ih =>
    obtain ⟨k', v'⟩ := p
    by_cases h1 : k' = k
    · subst h1
      by_cases hq : k' = q <;> simp [mapUpsert, lookupAnswer, hq]
    · simp only [mapUpsert, if_neg h1]
      by_cases h2 : k' = q
      · subst h2
        have : ¬k = k' := fun h => h1 h.symm
        simp [lookupAnswer, this]
      · simp [lookupAnswer, h2, ih]

/-- Membership of a key after a Go map assignment. -/
theorem mem_keys_mapUpsert (m : List (String × Answer)) (k : String) (v : Answer)
    (q : String) (h : q ∈ (mapUpsert m k v).map Prod.fst) :
    q ∈ m.map Prod.fst ∨ q = k := by
  induction m with
  | nil =>
    simp [mapUpsert] at h
    exact Or.inr h
  | cons p rest ih =>
    obtain ⟨k', v'⟩ := p
    by_cases h1 : k' = k
    · subst h1
      simp [mapUpsert] at h
      rcases h with h | h
      · exact Or.inl (by simp [h])
      · exact Or.inl (by simp; exact Or.inr h)
    · simp only [mapUpsert, if_neg h1, List.map_cons, List.mem_cons] at h
      rcases h with h | h
      · exact Or.inl (by simp [h])
      · rcases ih h with h' | h'
        · exact Or.inl (by simp at h' ⊢; exact Or.inr h')
        · exact Or.inr h'

/-- A Go map never holds two entries for one key: assignment preserves
distinctness of the keys. -/
theorem keys_nodup_mapUpsert (m : List (String × Answer)) (k : String) (v : Answer)
    (h : (m.map Prod.fst).Nodup) : ((mapUpsert m k v).map Prod.fst).Nodup := by
  induction m with
  | nil => simp [mapUpsert]
  | cons p rest ih =>
    obtain ⟨k', v'⟩ := p
    simp only [List.map_cons, List.nodup_cons] at h
    by_cases h1 : k' = k
    · subst h1
      simpa [mapUpsert] using h
    · simp only [mapUpsert, if_neg h1, List.map_cons, List.nodup_cons]
      refine ⟨fun hmem => ?_, ih h.2⟩
      rcases mem_keys_mapUpsert rest k v k' hmem with h' | h'
      · exact h.1 h'
      · exact h1 h'

/-- The answer decoded from the last entry of the raw `answers` array
whose `questionId` is `q` (none when no entry for `q` decodes);
`i` is the array index of the first listed element. -/
def lastAnswerIn (i : Nat) (xs : List GoVal) (q : String) : Option Answer :=
  match xs with
  | [] => none
  | x :: rest =>
    match lastAnswerIn (i + 1) rest q with
    | some a => some a
    | none =>
      match x with
      | .obj f =>
        match parseAnswer f i with
        | .ok (qid, a) => if qid = q then some a else none
        | .error _ => none
      | _ => none

/-- Through the answers loop, a key reads back as the decoded answer of
the last remaining entry for it, falling back to the accumulator map. -/
theorem parseAnswerList_lookup (xs : List GoVal) :
    ∀ (i : Nat) (acc m : List (String × Answer)) (q : String),
      parseAnswerList i acc xs = .ok m →
      lookupAnswer m q =
        match lastAnswerIn i xs q with
        | some a => some a
        | none => lookupAnswer acc q := by
  induction xs with
  | nil =>
    intro i acc m q h
    simp only [parseAnswerList] at h
    cases h
    rfl
  | cons x rest ih =>
    intro i acc m q h
    match x with
    | .obj f =>
      simp only [parseAnswerList] at h
      cases hpa : parseAnswer f i with
      | error e => rw [hpa] at h; exact absurd h (by simp)
      | ok pair =>
        obtain ⟨qid, a⟩ := pair
        rw [hpa] at h
        have := ih (i + 1) (mapUpsert acc qid a) m q h
        rw [this]
        show _ =
          (match (match lastAnswerIn (i + 1) rest q with
                  | some a' => some a'
                  | none =>
                    match parseAnswer f i with
                    | .ok (qid', a') => if qid' = q then some a' else none
                    | .error _ => none) with
           | some a' => some a'
           | none => lookupAnswer acc q)
        cases hlast : lastAnswerIn (i + 1) rest q with
        | some b => simp
        | none =>
          simp only [hpa]
          rw [lookupAnswer_mapUpsert]
          by_cases hq : qid = q <;> simp [hq]
    | .str s => simp [parseAnswerList] at h
    | .bool b => simp [parseAnswerList] at h
    | .num n => simp [parseAnswerList] at h
    | .arr es => simp [parseAnswerList] at h
    | .null => simp [parseAnswerList] at h

/-- The answers loop keeps the map's keys distinct. -/
theorem parseAnswerList_keys_nodup (xs : List GoVal) :
    ∀ (i : Nat) (acc m : List (String × Answer)),
      (acc.map Prod.fst).Nodup →
      parseAnswerList i acc xs = .ok m → (m.map Prod.fst).Nodup := by
  induction xs with
  | nil =>
    intro i acc m hacc h
    simp only [parseAnswerList] at h
    cases h
    exact hacc
  | cons x rest ih =>
    intro i acc m hacc h
    match x with
    | .obj f =>
      simp only [parseAnswerList] at h
      cases hpa : parseAnswer f i with
      | error e => rw [hpa] at h; exact absurd h (by simp)
      | ok pair =>
        obtain ⟨qid, a⟩ := pair
        rw [hpa] at h
        exact ih (i + 1) _ m (keys_nodup_mapUpsert acc qid a hacc) h
    | .str s => simp [parseAnswerList] at h
    | .bool b => simp [parseAnswerList] at h
    | .num n => simp [parseAnswerList] at h
    | .arr es => simp [parseAnswerList] at h
    | .null => simp [parseAnswerList] at h

/-- With distinct keys, a key that reads back holds exactly one entry. -/
theorem lookupAnswer_count_one (m : List (String × Answer)) (q : String) (a : Answer)
    (hnd : (m.map Prod.fst).Nodup) (h : lookupAnswer m q = some a) :
    (m.filter (fun p => p.1 == q)).length = 1 := by
  induction m with
  | nil => simp [lookupAnswer] at h
  | cons p rest ih =>
    obtain ⟨k, v⟩ := p
    simp only [List.map_cons, List.nodup_cons] at hnd
    by_cases hk : k = q
    · subst hk
      have hrest : rest.filter (fun p => p.1 == k) = [] := by
        rw [List.filter_eq_nil_iff]
        intro p hp
        simp only [beq_iff_eq]
        intro hpk
        exact hnd.1 (hpk ▸ List.mem_map_of_mem Prod.fst hp)
      simp [List.filter_cons, hrest]
    · simp only [lookupAnswer, if_neg hk] at h
      have := ih hnd.2 h
      simpa [List.filter_cons, hk] using this

/-- Claim C10: duplicate `questionId`s in the answers array do not
fail the decode; the resulting map holds exactly one entry per
questionId, the one decoded from the last matching entry of the array
(Go map assignment overwrites). Concretely, two answers for `"q1"`
leave the single entry decoded from the second. -/
theorem c10_duplicate_question_ids :
    (∀ (record : List (String × GoVal)) (uri : String) (m : List (String × Answer))
       (answersRaw : List GoVal),
       getArr record "answers" = some answersRaw →
       ParseResponseRecord record = .ok (uri, m) →
       ((m.map Prod.fst).Nodup ∧
        (∀ q a, lookupAnswer m q = some a → (m.filter (fun p => p.1 == q)).length = 1) ∧
        (∀ q, lookupAnswer m q = lastAnswerIn 0 answersRaw q))) ∧
    ParseResponseRecord
      [("subject", .obj [("uri", .str "at://alice/net.openmeet.survey/s1")]),
       ("answers", .arr
         [.obj [("questionId", .str "q1"), ("selectedOptions", .arr [.str "a"])],
          .obj [("questionId", .str "q1"), ("text", .str "later")]])] =
      .ok ("at://alice/net.openmeet.survey/s1", [("q1", ⟨[], "later"⟩)]) := by
  refine ⟨?_, rfl⟩
  intro record uri m answersRaw hga h
  unfold ParseResponseRecord at h
  split at h
  · exact absurd h (by simp)
  · split at h
    · exact absurd h (by simp)
    · split at h
      · exact absurd h (by simp)
      · split at h
        · exact absurd h (by simp)
        · exact absurd h (by simp)
        · rename_i xs hxne hxs
          have hxeq : xs = answersRaw := by
            rw [hxs] at hga
            exact Option.some.inj hga
          subst hxeq
          split at h
          · exact absurd h (by simp)
          · rename_i answers hpl
            simp only [Except.ok.injEq, Prod.mk.injEq] at h
            obtain ⟨h1, h2⟩ := h
            subst h2
            refine ⟨parseAnswerList_keys_nodup _ 0 [] answers (by simp) hpl, ?_, ?_⟩
            · intro q a hla
              exact lookupAnswer_count_one answers q a
                (parseAnswerList_keys_nodup _ 0 [] answers (by simp) hpl) hla
            · intro q
              have := parseAnswerList_lookup _ 0 [] answers q hpl
              rw [this]
              cases lastAnswerIn 0 xs q <;> rfl

/-- Witness for C10 at the concrete duplicate-questionId record. -/
theorem c10_duplicate_question_ids_witness :
    lookupAnswer [("q1", (⟨[], "later"⟩ : Answer))] "q1" =
      lastAnswerIn 0
        [.obj [("questionId", .str "q1"), ("selectedOptions", .arr [.str "a"])],
         .obj [("questionId", .str "q1"), ("text", .str "later")]] "q1" :=
  (c10_duplicate_question_ids.1
    [("subject", .obj [("uri", .str "at://alice/net.openmeet.survey/s1")]),
     ("answers", .arr
       [.obj [("questionId", .str "q1"), ("selectedOptions", .arr [.str "a"])],
        .obj [("questionId", .str "q1"), ("text", .str "later")]])]
    "at://alice/net.openmeet.survey/s1" [("q1", ⟨[], "later"⟩)] _ rfl rfl).2.2 "q1"

/-! ### `strings.Split` lemmas for C7 -/

/-- `strings.Split` always yields at least one part. -/
theorem splitHash_ne_nil (l : List Char) : splitHash l ≠ [] := by
  cases l with
  | nil => simp [splitHash]
  | cons c cs =>
    simp only [splitHash]
    cases splitHash cs with
    | nil => simp
    | cons h t =>
      by_cases hc : c = '#' <;> simp [hc]

/-- A hash-free string splits into itself alone. -/
theorem splitHash_no_hash (l : List Char) (h : '#' ∉ l) : splitHash l = [l] := by
  induction l with
  | nil => rfl
  | cons c cs ih =>
    simp only [List.mem_cons, not_or] at h
    simp only [splitHash, ih h.2]
    have hc : ¬c = '#' := fun he => h.1 he.symm
    simp [hc]

/-- Splitting past an inserted `#`: the last part is the last part of
the suffix's split, and there is more than one part. -/
theorem splitHash_append (p s : List Char) :
    (splitHash (p ++ '#' :: s)).getLast? = (splitHash s).getLast? ∧
    (splitHash (p ++ '#' :: s)).length > 1 := by
  induction p with
  | nil =>
    simp only [List.nil_append, splitHash]
    cases hs : splitHash s with
    | nil => exact absurd hs (splitHash_ne_nil s)
    | cons h t => exact ⟨List.getLast?_cons_cons, by simp⟩
  | cons c p' ih =>
    simp only [List.cons_append, splitHash]
    cases hp : splitHash (p' ++ '#' :: s) with
    | nil => exact absurd hp (splitHash_ne_nil _)
    | cons h t =>
      rw [hp] at ih
      by_cases hc : c = '#'
      · simp only [if_pos hc]
        refine ⟨?_, by have := ih.2; simp only [List.length_cons] at this ⊢; omega⟩
        rw [← ih.1]
        exact List.getLast?_cons_cons
      · simp only [if_neg hc]
        cases t with
        | nil => exact absurd ih.2 (by simp)
        | cons t1 ts =>
          refine ⟨?_, by have := ih.2; simp only [List.length_cons] at this ⊢; omega⟩
          rw [← ih.1]
          rw [List.getLast?_cons_cons, List.getLast?_cons_cons]

/-- The selected-option loop on an all-string array returns exactly
those strings, in order. -/
theorem parseSelectedList_strings (ss : List String) :
    ∀ i j : Nat, parseSelectedList i j (ss.map GoVal.str) = .ok ss := by
  induction ss with
  | nil => intro i j; rfl
  | cons s rest ih =>
    intro i j
    simp only [List.map_cons, parseSelectedList, ih i (j + 1)]

/-- Claim C7: the decoder's field-mapping quirks. (1) The external
`name` field is what `ParseSurveyRecord` returns as the title
component. (2) The choice-answer list comes from `selectedOptions`:
when that field holds the strings `ss` the decoded answer's list is
`ss`, and when the field is absent (whatever other fields, e.g.
`selected`, are present) the list is empty. (3) A namespaced type
`prefixPart ++ "#" ++ seg` with hash-free `seg` decodes to exactly
`seg`. (4) `ParseResponseRecord` reads only the `subject` and
`answers` fields — a voter identity in the payload body can never
influence the result. -/
theorem c7_field_mapping_quirks :
    (∀ (record : List (String × GoVal)) (d : SurveyDefinition) (name description : String),
       ParseSurveyRecord record = .ok (d, name, description) →
       getStr record "name" = some name) ∧
    (∀ (ansObj : List (String × GoVal)) (i : Nat) (qid : String) (a : Answer)
       (ss : List String),
       parseAnswer ansObj i = .ok (qid, a) →
       getVal ansObj "selectedOptions" = some (.arr (ss.map GoVal.str)) →
       a.selectedOptions = ss) ∧
    (∀ (ansObj : List (String × GoVal)) (i : Nat) (qid : String) (a : Answer),
       parseAnswer ansObj i = .ok (qid, a) →
       getVal ansObj "selectedOptions" = none →
       a.selectedOptions = []) ∧
    (∀ p seg : String, '#' ∉ seg.data →
       stripTokenPrefix (p ++ "#" ++ seg) = seg) ∧
    (∀ r₁ r₂ : List (String × GoVal),
       getObj r₁ "subject" = getObj r₂ "subject" →
       getArr r₁ "answers" = getArr r₂ "answers" →
       ParseResponseRecord r₁ = ParseResponseRecord r₂) := by
  refine ⟨?_, ?_, ?_, ?_, ?_⟩
  · intro record d name description h
    unfold ParseSurveyRecord at h
    split at h
    · exact absurd h (by simp)
    · rename_i nm hnm
      split at h
      · exact absurd h (by simp)
      · split at h
        · exact absurd h (by simp)
        · exact absurd h (by simp)
        · split at h
          · exact absurd h (by simp)
          · simp only [Except.ok.injEq, Prod.mk.injEq] at h
            rw [hnm, h.2.1]
  · intro ansObj i qid a ss h hsel
    unfold parseAnswer at h
    split at h
    · exact absurd h (by simp)
    · rename_i q hq
      split at h
      · exact absurd h (by simp)
      · simp only [hsel, parseSelectedList_strings ss i 0] at h
        split at h
        · rename_i v hv
          split at h
          · simp only [Except.ok.injEq, Prod.mk.injEq] at h
            rw [← h.2]
          · exact absurd h (by simp)
        · simp only [Except.ok.injEq, Prod.mk.injEq] at h
          rw [← h.2]
  · intro ansObj i qid a h hsel
    unfold parseAnswer at h
    split at h
    · exact absurd h (by simp)
    · rename_i q hq
      split at h
      · exact absurd h (by simp)
      · simp only [hsel] at h
        split at h
        · rename_i v hv
          split at h
          · simp only [Except.ok.injEq, Prod.mk.injEq] at h
            rw [← h.2]
          · exact absurd h (by simp)
        · simp only [Except.ok.injEq, Prod.mk.injEq] at h
          rw [← h.2]
  · intro p seg hseg
    unfold stripTokenPrefix
    have hdata : (p ++ "#" ++ seg).data = p.data ++ '#' :: seg.data := by
      simp [String.data_append]
    rw [hdata]
    have hsp := splitHash_append p.data seg.data
    rw [if_pos hsp.2]
    rw [List.getLastD_eq_getLast?, hsp.1, splitHash_no_hash seg.data hseg]
    cases seg
    rfl
  · intro r₁ r₂ h1 h2
    unfold ParseResponseRecord
    rw [h1, h2]

/-- Witness for C7 at concrete inputs: the name field read back as the
title, a concrete namespaced type token, a concrete selectedOptions
answer, and a response record carrying an extra `did` body field that
cannot change the decode. -/
theorem c7_field_mapping_quirks_witness :
    getStr [("name", GoVal.str "Coffee"),
            ("questions", GoVal.arr [GoVal.obj
              [("id", GoVal.str "q1"), ("text", GoVal.str "Like coffee?"),
               ("type", GoVal.str "net.openmeet.survey#single")]])] "name" = some "Coffee" ∧
    (Answer.selectedOptions ⟨["y"], ""⟩ : List String) = ["y"] ∧
    stripTokenPrefix ("net.openmeet.survey" ++ "#" ++ "single") = "single" ∧
    ParseResponseRecord
      [("subject", .obj [("uri", .str "at://a/net.openmeet.survey/s")]),
       ("answers", .arr [.obj [("questionId", .str "q1")]]),
       ("did", .str "did:plc:mallory")] =
    ParseResponseRecord
      [("subject", .obj [("uri", .str "at://a/net.openmeet.survey/s")]),
       ("answers", .arr [.obj [("questionId", .str "q1")]])] :=
  ⟨c7_field_mapping_quirks.1
      [("name", GoVal.str "Coffee"),
       ("questions", GoVal.arr [GoVal.obj
         [("id", GoVal.str "q1"), ("text", GoVal.str "Like coffee?"),
          ("type", GoVal.str "net.openmeet.survey#single")]])]
      ⟨[⟨"q1", "Like coffee?", "single", false, []⟩], false⟩ "Coffee" "" rfl,
   c7_field_mapping_quirks.2.1
      [("questionId", .str "q1"), ("selectedOptions", .arr [.str "y"])] 0 "q1"
      ⟨["y"], ""⟩ ["y"] rfl rfl,
   c7_field_mapping_quirks.2.2.2.1 "net.openmeet.survey" "single" (by decide),
   c7_field_mapping_quirks.2.2.2.2 _ _ rfl rfl⟩

/-- Closed form of the backoff schedule: doubling from 1s, capped. -/
theorem waitAfterFailures_closed (n : Nat) : waitAfterFailures n = min (2 ^ n) 60 := by
  induction n with
  | zero => rfl
  | succ n ih =>
    show nextBackoff (waitAfterFailures n) = _
    rw [ih]
    unfold nextBackoff maxBackoffS
    rcases le_or_lt (2 ^ n) 60 with h | h
    · rw [min_eq_left h, pow_succ]
    · have h2 : (60 : Nat) ≤ 2 ^ (n + 1) := by
        rw [pow_succ]
        omega
      rw [min_eq_right h.le, min_eq_right h2]
      decide

/-- The waits emitted by a run of consecutive failures, relative to
the state reached after `n` previous consecutive failures. -/
theorem backoffRun_failures (k : Nat) :
    ∀ n : Nat, (backoffRun (waitAfterFailures n) (List.replicate k .failure)).1 =
      (List.range k).map (fun i => waitAfterFailures (n + i)) := by
  induction k with
  | zero => intro n; rfl
  | succ k ih =>
    intro n
    show (backoffRun (waitAfterFailures n) (.failure :: List.replicate k .failure)).1 = _
    simp only [backoffRun, backoffStep, Option.toList_some, List.singleton_append]
    have hnext : nextBackoff (waitAfterFailures n) = waitAfterFailures (n + 1) := rfl
    rw [hnext, ih (n + 1), List.range_succ_eq_map]
    simp only [List.map_cons, List.map_map, Nat.add_zero]
    congr 1
    apply List.map_congr_left
    intro i hi
    simp only [Function.comp_apply]
    congr 1
    omega

/-- Claim C9: modelled Stream Client backoff. Consecutive connection
failures wait 1s, 2s, 4s, … (closed form `min (2 ^ n) 60`), capped at
60s; a successful streaming period resets the pending wait so the
next failure waits 1s again. -/
theorem c9_backoff_schedule :
    (∀ n, waitAfterFailures n = min (2 ^ n) 60) ∧
    (waitAfterFailures 0 = 1 ∧ waitAfterFailures 1 = 2 ∧ waitAfterFailures 2 = 4 ∧
     waitAfterFailures 6 = 60 ∧ waitAfterFailures 7 = 60) ∧
    (∀ k, (backoffRun initialBackoffS (List.replicate k .failure)).1 =
       (List.range k).map waitAfterFailures) ∧
    (∀ b, backoffStep b .success = (none, initialBackoffS)) ∧
    (∀ b, (backoffStep (backoffStep b .success).2 .failure).1 = some initialBackoffS) ∧
    (∀ n, waitAfterFailures n ≤ 60) := by
  refine ⟨waitAfterFailures_closed, by decide, ?_, fun _ => rfl, fun _ => rfl, ?_⟩
  · intro k
    have := backoffRun_failures k 0
    rw [show waitAfterFailures 0 = initialBackoffS from rfl] at this
    rw [this]
    apply List.map_congr_left
    intro i hi
    rw [Nat.zero_add]
  · intro n
    rw [waitAfterFailures_closed]
    exact min_le_right _ _
/-! ### Processor claims -/

/-- A permanent failure — a decode/validation error or an
authorization failure — makes the data mutation a rejected no-op. -/
theorem attemptMutation_none_of_permanent (s : Store) (ev : StreamEvent)
    (h : eventDecodeFails ev = true ∨ authFailure s ev = true) :
    attemptMutation s ev = none := by
  obtain ⟨coll, op, repo, rkey, seq, payload⟩ := ev
  rcases h with h | h
  · cases coll <;> cases op <;> simp only [eventDecodeFails] at h <;>
      try exact absurd h (by decide)
    · -- survey create
      cases payload with
      | none => rfl
      | some record =>
        simp only at h
        cases hp : ParseSurveyRecord record with
        | ok v => rw [hp] at h; exact absurd h (by simp)
        | error e =>
          cases hf : findSurveyByKey s.surveys rkey <;>
            simp [attemptMutation, hf, hp]
    · -- survey update
      cases payload with
      | none => rfl
      | some record =>
        simp only at h
        cases hp : ParseSurveyRecord record with
        | ok v => rw [hp] at h; exact absurd h (by simp)
        | error e =>
          cases hf : findSurveyByKey s.surveys rkey with
          | none => simp [attemptMutation, hf]
          | some row =>
            cases hrepo : row.repo == repo <;>
              simp [attemptMutation, hf, hp, hrepo]
    · -- response create
      cases payload with
      | none => rfl
      | some record =>
        simp only at h
        cases hp : ParseResponseRecord record with
        | ok v => rw [hp] at h; exact absurd h (by simp)
        | error e => simp [attemptMutation, hp]
    · -- response update
      cases payload with
      | none => rfl
      | some record =>
        simp only at h
        cases hp : ParseResponseRecord record with
        | ok v => rw [hp] at h; exact absurd h (by simp)
        | error e => simp [attemptMutation, hp]
    · -- results create
      cases payload with
      | none => rfl
      | some record =>
        simp only at h
        cases hp : ParseResultsRecord record with
        | ok v => rw [hp] at h; exact absurd h (by simp)
        | error e => simp [attemptMutation, hp]
    · -- results update
      cases payload with
      | none => rfl
      | some record =>
        simp only at h
        cases hp : ParseResultsRecord record with
        | ok v => rw [hp] at h; exact absurd h (by simp)
        | error e => simp [attemptMutation, hp]
  · cases coll <;> cases op <;> simp only [authFailure] at h <;>
      try exact absurd h (by decide)
    · -- survey update, non-owner repository
      cases hf : findSurveyByKey s.surveys rkey with
      | none => rw [hf] at h; exact absurd h (by simp)
      | some row =>
        rw [hf] at h
        simp only at h
        simp only [Bool.not_eq_eq_eq_not, Bool.not_true] at h
        cases payload with
        | none => rfl
        | some record => simp [attemptMutation, hf, h]
    · -- survey delete, non-owner repository
      cases hf : findSurveyByKey s.surveys rkey with
      | none => rw [hf] at h; exact absurd h (by simp)
      | some row =>
        rw [hf] at h
        simp only at h
        simp only [Bool.not_eq_eq_eq_not, Bool.not_true] at h
        simp [attemptMutation, hf, h]

/-- Claim C1: when an event fails for a permanent reason (a
decode/validation error or an authorization failure) under available
storage, the transaction commits a pure no-op: no survey, response or
results row changes, yet the cursor advances to the event's sequence. -/
theorem c1_permanent_failure_advances_cursor (s : Store) (ev : StreamEvent)
    (h : eventDecodeFails ev = true ∨ authFailure s ev = true) :
    (applyEvent true s ev).surveys = s.surveys ∧
    (applyEvent true s ev).responses = s.responses ∧
    (applyEvent true s ev).results = s.results ∧
    (applyEvent true s ev).cursor = ev.seq := by
  have hm := attemptMutation_none_of_permanent s ev h
  simp [applyEvent, hm]

/-- Witness for C1: an empty survey-create payload (missing `name`)
against the empty store — nothing mutates, cursor lands on 100. -/
theorem c1_permanent_failure_advances_cursor_witness :
    (applyEvent true ⟨[], [], [], 0⟩
        ⟨.survey, .create, "did:plc:alice", "rec1", 100, some []⟩).surveys =
      (⟨[], [], [], 0⟩ : Store).surveys ∧
    (applyEvent true ⟨[], [], [], 0⟩
        ⟨.survey, .create, "did:plc:alice", "rec1", 100, some []⟩).responses =
      (⟨[], [], [], 0⟩ : Store).responses ∧
    (applyEvent true ⟨[], [], [], 0⟩
        ⟨.survey, .create, "did:plc:alice", "rec1", 100, some []⟩).results =
      (⟨[], [], [], 0⟩ : Store).results ∧
    (applyEvent true ⟨[], [], [], 0⟩
        ⟨.survey, .create, "did:plc:alice", "rec1", 100, some []⟩).cursor =
      (⟨.survey, .create, "did:plc:alice", "rec1", 100, some []⟩ : StreamEvent).seq :=
  c1_permanent_failure_advances_cursor _ _ (Or.inl rfl)

/-- Claim C2: when storage is unavailable the per-event transaction
rolls back entirely — the store after the failed attempt, cursor
included, is exactly the store before it, with no partial data write,
even though a data mutation was attempted. -/
theorem c2_transient_failure_rolls_back (s : Store) (ev : StreamEvent)
    (_h : ∃ s', attemptMutation s ev = some s') :
    applyEvent false s ev = s ∧ (applyEvent false s ev).cursor = s.cursor :=
  ⟨rfl, rfl⟩

/-- Witness for C2: a well-formed response-create whose mutation would
succeed, attempted while storage is down, leaves the store and cursor
untouched. -/
theorem c2_transient_failure_rolls_back_witness :
    applyEvent false
        ⟨[⟨"did:plc:alice", "s1", "Coffee", "", false, [], "coffee"⟩], [], [], 100⟩
        ⟨.response, .create, "did:plc:bob", "r1", 101,
         some [("subject", .obj [("uri", .str "at://did:plc:alice/net.openmeet.survey/s1")]),
               ("answers", .arr [.obj [("questionId", .str "q1"),
                                       ("selectedOptions", .arr [.str "y"])]])]⟩ =
      ⟨[⟨"did:plc:alice", "s1", "Coffee", "", false, [], "coffee"⟩], [], [], 100⟩ ∧
    (applyEvent false
        ⟨[⟨"did:plc:alice", "s1", "Coffee", "", false, [], "coffee"⟩], [], [], 100⟩
        ⟨.response, .create, "did:plc:bob", "r1", 101,
         some [("subject", .obj [("uri", .str "at://did:plc:alice/net.openmeet.survey/s1")]),
               ("answers", .arr [.obj [("questionId", .str "q1"),
                                       ("selectedOptions", .arr [.str "y"])]])]⟩).cursor =
      (⟨[⟨"did:plc:alice", "s1", "Coffee", "", false, [], "coffee"⟩], [], [], 100⟩ : Store).cursor :=
  c2_transient_failure_rolls_back _ _ ⟨_, rfl⟩

/-! ### Duplicate-vote prevention (C3) -/

/-- No two stored response rows belong to the same (voter identity,
survey) pair — the invariant of spec §3. -/
def responsesUniquePairs (rows : List ResponseRow) : Prop :=
  rows.Pairwise (fun a b => ¬(a.voterDid = b.voterDid ∧ a.surveyURI = b.surveyURI))

/-- How many stored rows a (voter identity, survey) pair owns. -/
def countResponses (rows : List ResponseRow) (v u : String) : Nat :=
  (rows.filter (fun r => r.voterDid == v && r.surveyURI == u)).length

/-- A row of the upserted table is an old row or the new one. -/
theorem mem_upsertResponse (rows : List ResponseRow) (r b : ResponseRow)
    (h : b ∈ upsertResponse rows r) : b ∈ rows ∨ b = r := by
  induction rows with
  | nil =>
    simp [upsertResponse] at h
    exact Or.inr h
  | cons x xs ih =>
    simp only [upsertResponse] at h
    split at h
    · rcases List.mem_cons.mp h with h' | h'
      · exact Or.inr h'
      · exact Or.inl (List.mem_cons_of_mem x h')
    · rcases List.mem_cons.mp h with h' | h'
      · exact Or.inl (h' ▸ List.mem_cons_self x xs)
      · rcases ih h' with h'' | h''
        · exact Or.inl (List.mem_cons_of_mem x h'')
        · exact Or.inr h''

/-- Upserting preserves the one-row-per-(voter, survey) invariant. -/
theorem upsertResponse_pairwise (rows : List ResponseRow) (r : ResponseRow)
    (h : responsesUniquePairs rows) : responsesUniquePairs (upsertResponse rows r) := by
  induction rows with
  | nil =>
    simp [upsertResponse, responsesUniquePairs]
  | cons x xs ih =>
    simp only [responsesUniquePairs, List.pairwise_cons] at h
    simp only [upsertResponse]
    split
    · rename_i hkey
      simp only [Bool.and_eq_true, beq_iff_eq] at hkey
      refine List.Pairwise.cons ?_ h.2
      intro b hb hpair
      exact h.1 b hb ⟨hkey.1 ▸ hpair.1, hkey.2 ▸ hpair.2⟩
    · rename_i hkey
      simp only [Bool.and_eq_true, beq_iff_eq, not_and] at hkey
      refine List.Pairwise.cons ?_ (ih h.2)
      intro b hb
      rcases mem_upsertResponse xs r b hb with h' | h'
      · exact h.1 b h'
      · subst h'
        intro hpair
        exact hkey hpair.1 hpair.2

/-- The (voter, survey) invariant bounds every pair's row count by 1. -/
theorem pairwise_countResponses_le_one (rows : List ResponseRow) (v u : String)
    (h : responsesUniquePairs rows) : countResponses rows v u ≤ 1 := by
  induction rows with
  | nil => simp [countResponses]
  | cons x xs ih =>
    simp only [responsesUniquePairs, List.pairwise_cons] at h
    by_cases hx : (x.voterDid == v && x.surveyURI == u) = true
    · have hrest : xs.filter (fun r => r.voterDid == v && r.surveyURI == u) = [] := by
        rw [List.filter_eq_nil_iff]
        intro b hb hbmatch
        simp only [Bool.and_eq_true, beq_iff_eq] at hbmatch hx
        exact h.1 b hb ⟨hx.1.trans hbmatch.1.symm, hx.2.trans hbmatch.2.symm⟩
      simp [countResponses, List.filter_cons, hx, hrest]
    · have := ih h.2
      simpa [countResponses, List.filter_cons, hx] using this

/-- The data mutation only ever leaves the response table alone,
upserts one row, or filters rows out. -/
theorem attemptMutation_responses_shape (s : Store) (ev : StreamEvent) (s' : Store)
    (h : attemptMutation s ev = some s') :
    s'.responses = s.responses ∨
    (∃ r, s'.responses = upsertResponse s.responses r) ∨
    (∃ p, s'.responses = s.responses.filter p) := by
  obtain ⟨coll, op, repo, rkey, seq, payload⟩ := ev
  cases coll with
  | unknown =>
    simp only [attemptMutation] at h
    cases h
    exact Or.inl rfl
  | survey =>
    cases op with
    | delete =>
      simp only [attemptMutation] at h
      split at h
      · cases h; exact Or.inl rfl
      · split at h
        · cases h; exact Or.inl rfl
        · exact absurd h (by simp)
    | create =>
      simp only [attemptMutation] at h
      cases payload with
      | none => exact absurd h (by simp)
      | some record =>
        simp only at h
        split at h
        · exact absurd h (by simp)
        · rw [Option.map_eq_some'] at h
          obtain ⟨t, _, ht⟩ := h
          rw [← ht]
          exact Or.inl rfl
    | update =>
      simp only [attemptMutation] at h
      cases payload with
      | none => exact absurd h (by simp)
      | some record =>
        simp only at h
        split at h
        · exact absurd h (by simp)
        · split at h
          · split at h
            · exact absurd h (by simp)
            · rw [Option.map_eq_some'] at h
              obtain ⟨t, _, ht⟩ := h
              rw [← ht]
              exact Or.inl rfl
          · exact absurd h (by simp)
        · -- unreachable catch-all of the (operation, lookup) match
          rename_i a b hnone hsome
          cases hf : findSurveyByKey s.surveys rkey with
          | none => exact (hnone rfl hf).elim
          | some row => exact (hsome row rfl hf).elim
  | response =>
    cases op with
    | delete =>
      simp only [attemptMutation] at h
      cases h
      exact Or.inr (Or.inr ⟨_, rfl⟩)
    | create =>
      simp only [attemptMutation] at h
      cases payload with
      | none => exact absurd h (by simp)
      | some record =>
        simp only at h
        split at h
        · exact absurd h (by simp)
        · split at h
          · exact absurd h (by simp)
          · cases h
            exact Or.inr (Or.inl ⟨_, rfl⟩)
    | update =>
      simp only [attemptMutation] at h
      cases payload with
      | none => exact absurd h (by simp)
      | some record =>
        simp only at h
        split at h
        · exact absurd h (by simp)
        · split at h
          · exact absurd h (by simp)
          · cases h
            exact Or.inr (Or.inl ⟨_, rfl⟩)
  | results =>
    cases op with
    | delete =>
      simp only [attemptMutation] at h
      cases h
      exact Or.inl rfl
    | create =>
      simp only [attemptMutation] at h
      cases payload with
      | none => exact absurd h (by simp)
      | some record =>
        simp only at h
        split at h
        · exact absurd h (by simp)
        · split at h
          · exact absurd h (by simp)
          · cases h
            exact Or.inl rfl
    | update =>
      simp only [attemptMutation] at h
      cases payload with
      | none => exact absurd h (by simp)
      | some record =>
        simp only at h
        split at h
        · exact absurd h (by simp)
        · split at h
          · exact absurd h (by simp)
          · cases h
            exact Or.inl rfl

/-- Claim C3: at most one Response row per (voter identity, survey).
Processing any event preserves the invariant, so after any sequence of
events from an invariant store each pair owns at most one row; and two
Response Creates from one voter for one survey with different answers
leave exactly the one row holding the second event's answers. -/
theorem c3_one_response_per_voter_survey :
    (∀ (up : Bool) (s : Store) (ev : StreamEvent),
       responsesUniquePairs s.responses →
       responsesUniquePairs ((applyEvent up s ev).responses)) ∧
    (∀ (up : Bool) (s : Store) (evs : List StreamEvent),
       responsesUniquePairs s.responses →
       ∀ v u, countResponses ((evs.foldl (applyEvent up) s).responses) v u ≤ 1) ∧
    (applyEvent true
       (applyEvent true
         ⟨[⟨"did:plc:alice", "s1", "Coffee", "", false, [], "coffee"⟩], [], [], 100⟩
         ⟨.response, .create, "did:plc:v", "r1", 101,
          some [("subject", .obj [("uri", .str "at://did:plc:alice/net.openmeet.survey/s1")]),
                ("answers", .arr [.obj [("questionId", .str "q1"),
                                        ("selectedOptions", .arr [.str "y"])]])]⟩)
       ⟨.response, .create, "did:plc:v", "r2", 102,
        some [("subject", .obj [("uri", .str "at://did:plc:alice/net.openmeet.survey/s1")]),
              ("answers", .arr [.obj [("questionId", .str "q1"),
                                      ("selectedOptions", .arr [.str "n"])]])]⟩).responses =
      [⟨"did:plc:v", "at://did:plc:alice/net.openmeet.survey/s1", "r2",
        [("q1", ⟨["n"], ""⟩)]⟩] := by
  have hstep : ∀ (up : Bool) (s : Store) (ev : StreamEvent),
      responsesUniquePairs s.responses →
      responsesUniquePairs ((applyEvent up s ev).responses) := by
    intro up s ev h
    cases up with
    | false => exact h
    | true =>
      unfold applyEvent
      simp only [if_pos rfl]
      cases ham : attemptMutation s ev with
      | none => exact h
      | some s' =>
        show responsesUniquePairs s'.responses
        rcases attemptMutation_responses_shape s ev s' ham with hsh | ⟨r, hsh⟩ | ⟨p, hsh⟩
        · rw [hsh]; exact h
        · rw [hsh]; exact upsertResponse_pairwise _ r h
        · rw [hsh]
          exact List.Pairwise.sublist (List.filter_sublist _) h
  refine ⟨hstep, ?_, rfl⟩
  intro up s evs h v u
  have hfold : responsesUniquePairs ((evs.foldl (applyEvent up) s).responses) := by
    induction evs generalizing s with
    | nil => exact h
    | cons e es ih =>
      simp only [List.foldl_cons]
      exact ih _ (hstep up s e h)
  exact pairwise_countResponses_le_one _ v u hfold

/-- Witness for C3: starting from the empty response table, two
creates from voter v for the same survey leave at most one row for
(v, survey). -/
theorem c3_one_response_per_voter_survey_witness :
    countResponses
      (([⟨.response, .create, "did:plc:v", "r1", 101,
          some [("subject", .obj [("uri", .str "at://did:plc:alice/net.openmeet.survey/s1")]),
                ("answers", .arr [.obj [("questionId", .str "q1"),
                                        ("selectedOptions", .arr [.str "y"])]])]⟩,
         ⟨.response, .create, "did:plc:v", "r2", 102,
          some [("subject", .obj [("uri", .str "at://did:plc:alice/net.openmeet.survey/s1")]),
                ("answers", .arr [.obj [("questionId", .str "q1"),
                                        ("selectedOptions", .arr [.str "n"])]])]⟩] :
          List StreamEvent).foldl (applyEvent true)
        ⟨[⟨"did:plc:alice", "s1", "Coffee", "", false, [], "coffee"⟩], [], [], 100⟩).responses
      "did:plc:v" "at://did:plc:alice/net.openmeet.survey/s1" ≤ 1 :=
  c3_one_response_per_voter_survey.2.1 true
    ⟨[⟨"did:plc:alice", "s1", "Coffee", "", false, [], "coffee"⟩], [], [], 100⟩
    _ List.Pairwise.nil "did:plc:v" "at://did:plc:alice/net.openmeet.survey/s1"

/-! ### Decode success characterization (C6) -/

/-- Did the Go parse return without error? -/
def exceptOk {ε α : Type} : Except ε α → Bool
  | .ok _ => true
  | .error _ => false

/-- A present, non-empty string field. -/
def nonEmptyStr : Option String → Bool
  | some s => s != ""
  | none => false

/-- Is the dynamic value an object? -/
def isObjB : GoVal → Bool
  | .obj _ => true
  | _ => false

/-- Is the dynamic value a string? -/
def isStrB : GoVal → Bool
  | .str _ => true
  | _ => false

/-- The claim's condition on one listed option: non-empty `id` and
`text` (an option that is no object has neither). -/
def optionClaimOk (o : GoVal) : Bool :=
  match o with
  | .obj f => nonEmptyStr (getStr f "id") && nonEmptyStr (getStr f "text")
  | _ => false

/-- The claim's condition on one question: non-empty string `id`,
`text` and `type`, and every listed option well-formed (options are
listed only when the `options` field is an array — `parseQuestion`
ignores the field otherwise). -/
def questionClaimOk (q : GoVal) : Bool :=
  match q with
  | .obj f =>
    nonEmptyStr (getStr f "id") && nonEmptyStr (getStr f "text") &&
    nonEmptyStr (getStr f "type") &&
    (match getArr f "options" with
     | some opts => opts.all optionClaimOk
     | none => true)
  | _ => false

/-- The claim's condition on a survey record: non-empty `name`, a
non-empty `questions` array, every question well-formed. -/
def surveyClaimOk (r : List (String × GoVal)) : Bool :=
  nonEmptyStr (getStr r "name") &&
  (match getArr r "questions" with
   | some qs => !qs.isEmpty && qs.all questionClaimOk
   | none => false)

/-- The claim's condition on one answer exactly as the claim states
it: only a non-empty `questionId` is demanded. -/
def answerClaimNaive (a : GoVal) : Bool :=
  match a with
  | .obj f => nonEmptyStr (getStr f "questionId")
  | _ => false

/-- The claim's condition on a response record exactly as stated:
`subject.uri` present (non-empty) and a non-empty `answers` array with
a non-empty `questionId` per answer. -/
def responseClaimNaive (r : List (String × GoVal)) : Bool :=
  (match getObj r "subject" with
   | some sub => nonEmptyStr (getStr sub "uri")
   | none => false) &&
  (match getArr r "answers" with
   | some as => !as.isEmpty && as.all answerClaimNaive
   | none => false)

/-- The `selectedOptions` field, when present, is an array of strings. -/
def ansSelOk (f : List (String × GoVal)) : Bool :=
  match getVal f "selectedOptions" with
  | some (.arr xs) => xs.all isStrB
  | some _ => false
  | none => true

/-- The `text` field, when present, is a string. -/
def ansTextOk (f : List (String × GoVal)) : Bool :=
  match getVal f "text" with
  | some v => isStrB v
  | none => true

/-- The amended condition on one answer: non-empty `questionId`, plus
type-correct `selectedOptions` and `text` when present. -/
def answerClaimOk (a : GoVal) : Bool :=
  match a with
  | .obj f => nonEmptyStr (getStr f "questionId") && ansSelOk f && ansTextOk f
  | _ => false

/-- The amended condition on a response record. -/
def responseClaimOk (r : List (String × GoVal)) : Bool :=
  (match getObj r "subject" with
   | some sub => nonEmptyStr (getStr sub "uri")
   | none => false) &&
  (match getArr r "answers" with
   | some as => !as.isEmpty && as.all answerClaimOk
   | none => false)

/-- Claim C6 counterexample: this record meets the claim's stated
response condition (subject.uri present, non-empty answers, non-empty
questionId) yet `ParseResponseRecord` rejects it, because its
`selectedOptions` field is present but not an array — the claimed
"if and only if" fails right-to-left. -/
theorem c6_counterexample :
    responseClaimNaive
      [("subject", .obj [("uri", .str "at://a/net.openmeet.survey/s")]),
       ("answers", .arr [.obj [("questionId", .str "q1"),
                               ("selectedOptions", .str "oops")]])] = true ∧
    exceptOk (ParseResponseRecord
      [("subject", .obj [("uri", .str "at://a/net.openmeet.survey/s")]),
       ("answers", .arr [.obj [("questionId", .str "q1"),
                               ("selectedOptions", .str "oops")]])]) = false ∧
    ParseResponseRecord
      [("subject", .obj [("uri", .str "at://a/net.openmeet.survey/s")]),
       ("answers", .arr [.obj [("questionId", .str "q1"),
                               ("selectedOptions", .str "oops")]])] =
      .error (.answerSelectedNotArray 0) :=
  ⟨rfl, rfl, rfl⟩

/-- `parseOption` succeeds exactly on the claim's option condition. -/
theorem parseOption_ok (f : List (String × GoVal)) (qI oI : Nat) :
    exceptOk (parseOption f qI oI) = optionClaimOk (.obj f) := by
  unfold parseOption optionClaimOk
  cases hid : getStr f "id" with
  | none => simp [nonEmptyStr, exceptOk, hid]
  | some id =>
    by_cases hi : id = ""
    · simp [nonEmptyStr, exceptOk, hid, hi]
    · cases htx : getStr f "text" with
      | none => simp [nonEmptyStr, exceptOk, hid, htx, hi]
      | some tx =>
        by_cases ht : tx = "" <;> simp [nonEmptyStr, exceptOk, hid, htx, hi, ht]

/-- The options loop succeeds exactly when all listed options are
well-formed. -/
theorem parseOptionList_ok (qI : Nat) (opts : List GoVal) :
    ∀ j : Nat, exceptOk (parseOptionList qI j opts) = opts.all optionClaimOk := by
  induction opts with
  | nil => intro j; rfl
  | cons o rest ih =>
    intro j
    match o with
    | .obj f =>
      simp only [parseOptionList, List.all_cons]
      cases hpo : parseOption f qI j with
      | error e =>
        have := parseOption_ok f qI j
        rw [hpo] at this
        simp [exceptOk, ← this]
      | ok opt =>
        have := parseOption_ok f qI j
        rw [hpo] at this
        cases hpl : parseOptionList qI (j + 1) rest with
        | error e =>
          have h2 := ih (j + 1)
          rw [hpl] at h2
          simp [exceptOk, ← this, ← h2]
        | ok opts' =>
          have h2 := ih (j + 1)
          rw [hpl] at h2
          simp [exceptOk, ← this, ← h2]
    | .str s => simp [parseOptionList, optionClaimOk, exceptOk]
    | .bool b => simp [parseOptionList, optionClaimOk, exceptOk]
    | .num n => simp [parseOptionList, optionClaimOk, exceptOk]
    | .arr es => simp [parseOptionList, optionClaimOk, exceptOk]
    | .null => simp [parseOptionList, optionClaimOk, exceptOk]

/-- `parseQuestion` succeeds exactly on the claim's question condition. -/
theorem parseQuestion_ok (f : List (String × GoVal)) (i : Nat) :
    exceptOk (parseQuestion f i) = questionClaimOk (.obj f) := by
  unfold parseQuestion questionClaimOk
  cases hid : getStr f "id" with
  | none => simp [nonEmptyStr, exceptOk, hid]
  | some id =>
    by_cases hi : id = ""
    · simp [nonEmptyStr, exceptOk, hid, hi]
    · cases htx : getStr f "text" with
      | none => simp [nonEmptyStr, exceptOk, hid, htx, hi]
      | some tx =>
        by_cases ht : tx = ""
        · simp [nonEmptyStr, exceptOk, hid, htx, hi, ht]
        · cases hty : getStr f "type" with
          | none => simp [nonEmptyStr, exceptOk, hid, htx, hty, hi, ht]
          | some ty =>
            by_cases hy : ty = ""
            · simp [nonEmptyStr, exceptOk, hid, htx, hty, hi, ht, hy]
            · cases hop : getArr f "options" with
              | none => simp [nonEmptyStr, exceptOk, hid, htx, hty, hop, hi, ht, hy]
              | some opts =>
                have hpl := parseOptionList_ok i opts 0
                cases hpo : parseOptionList i 0 opts with
                | error e =>
                  rw [hpo] at hpl
                  simp [nonEmptyStr, exceptOk, hid, htx, hty, hop, hpo, hi, ht, hy, ← hpl]
                | ok os =>
                  rw [hpo] at hpl
                  simp [nonEmptyStr, exceptOk, hid, htx, hty, hop, hpo, hi, ht, hy, ← hpl]

/-- The questions loop succeeds exactly when all questions are
well-formed. -/
theorem parseQuestionList_ok (qs : List GoVal) :
    ∀ i : Nat, exceptOk (parseQuestionList i qs) = qs.all questionClaimOk := by
  induction qs with
  | nil => intro i; rfl
  | cons q rest ih =>
    intro i
    match q with
    | .obj f =>
      simp only [parseQuestionList, List.all_cons]
      cases hpq : parseQuestion f i with
      | error e =>
        have := parseQuestion_ok f i
        rw [hpq] at this
        simp [exceptOk, ← this]
      | ok question =>
        have := parseQuestion_ok f i
        rw [hpq] at this
        cases hpl : parseQuestionList (i + 1) rest with
        | error e =>
          have h2 := ih (i + 1)
          rw [hpl] at h2
          simp [exceptOk, ← this, ← h2]
        | ok questions =>
          have h2 := ih (i + 1)
          rw [hpl] at h2
          simp [exceptOk, ← this, ← h2]
    | .str s => simp [parseQuestionList, questionClaimOk, exceptOk]
    | .bool b => simp [parseQuestionList, questionClaimOk, exceptOk]
    | .num n => simp [parseQuestionList, questionClaimOk, exceptOk]
    | .arr es => simp [parseQuestionList, questionClaimOk, exceptOk]
    | .null => simp [parseQuestionList, questionClaimOk, exceptOk]

/-- `ParseSurveyRecord` succeeds exactly on the claim's survey
condition. -/
theorem ParseSurveyRecord_ok (r : List (String × GoVal)) :
    exceptOk (ParseSurveyRecord r) = surveyClaimOk r := by
  unfold ParseSurveyRecord surveyClaimOk
  cases hn : getStr r "name" with
  | none => simp [nonEmptyStr, exceptOk, hn]
  | some name =>
    by_cases hne : name = ""
    · simp [nonEmptyStr, exceptOk, hn, hne]
    · cases hq : getArr r "questions" with
      | none => simp [nonEmptyStr, exceptOk, hn, hq, hne]
      | some qs =>
        cases qs with
        | nil => simp [nonEmptyStr, exceptOk, hn, hq, hne]
        | cons q0 qrest =>
          have hpl := parseQuestionList_ok (q0 :: qrest) 0
          cases hpq : parseQuestionList 0 (q0 :: qrest) with
          | error e =>
            rw [hpq] at hpl
            simp [nonEmptyStr, exceptOk, hn, hq, hne, hpq, ← hpl]
          | ok questions =>
            rw [hpq] at hpl
            simp [nonEmptyStr, exceptOk, hn, hq, hne, hpq, ← hpl]

/-- The selected-option loop succeeds exactly when every element is a
string. -/
theorem parseSelectedList_ok (i : Nat) (xs : List GoVal) :
    ∀ j : Nat, exceptOk (parseSelectedList i j xs) = xs.all isStrB := by
  induction xs with
  | nil => intro j; rfl
  | cons x rest ih =>
    intro j
    match x with
    | .str s =>
      simp only [parseSelectedList, List.all_cons]
      cases hps : parseSelectedList i (j + 1) rest with
      | error e =>
        have := ih (j + 1)
        rw [hps] at this
        simp [exceptOk, isStrB, ← this]
      | ok opts =>
        have := ih (j + 1)
        rw [hps] at this
        simp [exceptOk, isStrB, ← this]
    | .obj f => simp [parseSelectedList, isStrB, exceptOk]
    | .bool b => simp [parseSelectedList, isStrB, exceptOk]
    | .num n => simp [parseSelectedList, isStrB, exceptOk]
    | .arr es => simp [parseSelectedList, isStrB, exceptOk]
    | .null => simp [parseSelectedList, isStrB, exceptOk]

/-- `parseAnswer` succeeds exactly on the amended answer condition. -/
theorem parseAnswer_ok (f : List (String × GoVal)) (i : Nat) :
    exceptOk (parseAnswer f i) = answerClaimOk (.obj f) := by
  unfold parseAnswer answerClaimOk ansSelOk ansTextOk
  cases hqid : getStr f "questionId" with
  | none => simp [nonEmptyStr, exceptOk, hqid]
  | some qid =>
    by_cases hq : qid = ""
    · simp [nonEmptyStr, exceptOk, hqid, hq]
    · cases hsel : getVal f "selectedOptions" with
      | some v =>
        match v with
        | .arr xs =>
          have hps := parseSelectedList_ok i xs 0
          cases hpo : parseSelectedList i 0 xs with
          | error e =>
            rw [hpo] at hps
            simp [nonEmptyStr, exceptOk, hqid, hsel, hpo, hq, ← hps]
          | ok selected =>
            rw [hpo] at hps
            cases htv : getVal f "text" with
            | some tv =>
              match tv with
              | .str t =>
                simp [nonEmptyStr, exceptOk, isStrB, hqid, hsel, hpo, htv, hq, ← hps]
              | .obj g => simp [nonEmptyStr, exceptOk, isStrB, hqid, hsel, hpo, htv, hq, ← hps]
              | .bool b => simp [nonEmptyStr, exceptOk, isStrB, hqid, hsel, hpo, htv, hq, ← hps]
              | .num n => simp [nonEmptyStr, exceptOk, isStrB, hqid, hsel, hpo, htv, hq, ← hps]
              | .arr es => simp [nonEmptyStr, exceptOk, isStrB, hqid, hsel, hpo, htv, hq, ← hps]
              | .null => simp [nonEmptyStr, exceptOk, isStrB, hqid, hsel, hpo, htv, hq, ← hps]
            | none =>
              simp [nonEmptyStr, exceptOk, hqid, hsel, hpo, htv, hq, ← hps]
        | .str s => simp [nonEmptyStr, exceptOk, hqid, hsel, hq]
        | .obj g => simp [nonEmptyStr, exceptOk, hqid, hsel, hq]
        | .bool b => simp [nonEmptyStr, exceptOk, hqid, hsel, hq]
        | .num n => simp [nonEmptyStr, exceptOk, hqid, hsel, hq]
        | .null => simp [nonEmptyStr, exceptOk, hqid, hsel, hq]
      | none =>
        cases htv : getVal f "text" with
        | some tv =>
          match tv with
          | .str t => simp [nonEmptyStr, exceptOk, isStrB, hqid, hsel, htv, hq]
          | .obj g => simp [nonEmptyStr, exceptOk, isStrB, hqid, hsel, htv, hq]
          | .bool b => simp [nonEmptyStr, exceptOk, isStrB, hqid, hsel, htv, hq]
          | .num n => simp [nonEmptyStr, exceptOk, isStrB, hqid, hsel, htv, hq]
          | .arr es => simp [nonEmptyStr, exceptOk, isStrB, hqid, hsel, htv, hq]
          | .null => simp [nonEmptyStr, exceptOk, isStrB, hqid, hsel, htv, hq]
        | none => simp [nonEmptyStr, exceptOk, hqid, hsel, htv, hq]

/-- The answers loop succeeds exactly when every answer meets the
amended condition. -/
theorem parseAnswerList_ok (xs : List GoVal) :
    ∀ (i : Nat) (acc : List (String × Answer)),
      exceptOk (parseAnswerList i acc xs) = xs.all answerClaimOk := by
  induction xs with
  | nil => intro i acc; rfl
  | cons x rest ih =>
    intro i acc
    match x with
    | .obj f =>
      simp only [parseAnswerList, List.all_cons]
      cases hpa : parseAnswer f i with
      | error e =>
        have := parseAnswer_ok f i
        rw [hpa] at this
        simp [exceptOk, ← this]
      | ok pair =>
        have := parseAnswer_ok f i
        rw [hpa] at this
        rw [ih (i + 1) (mapUpsert acc pair.1 pair.2)]
        simp [exceptOk, ← this]
    | .str s => simp [parseAnswerList, answerClaimOk, exceptOk]
    | .bool b => simp [parseAnswerList, answerClaimOk, exceptOk]
    | .num n => simp [parseAnswerList, answerClaimOk, exceptOk]
    | .arr es => simp [parseAnswerList, answerClaimOk, exceptOk]
    | .null => simp [parseAnswerList, answerClaimOk, exceptOk]

/-- `ParseResponseRecord` succeeds exactly on the amended response
condition. -/
theorem ParseResponseRecord_ok (r : List (String × GoVal)) :
    exceptOk (ParseResponseRecord r) = responseClaimOk r := by
  unfold ParseResponseRecord responseClaimOk
  cases hsub : getObj r "subject" with
  | none => simp [exceptOk, hsub]
  | some subject =>
    cases hu : getStr subject "uri" with
    | none => simp [nonEmptyStr, exceptOk, hsub, hu]
    | some u =>
      by_cases hue : u = ""
      · simp [nonEmptyStr, exceptOk, hsub, hu, hue]
      · cases ha : getArr r "answers" with
        | none => simp [nonEmptyStr, exceptOk, hsub, hu, ha, hue]
        | some as =>
          cases as with
          | nil => simp [nonEmptyStr, exceptOk, hsub, hu, ha, hue]
          | cons a0 arest =>
            have hpl := parseAnswerList_ok (a0 :: arest) 0 []
            cases hpa : parseAnswerList 0 [] (a0 :: arest) with
            | error e =>
              rw [hpa] at hpl
              simp [nonEmptyStr, exceptOk, hsub, hu, ha, hpa, hue, ← hpl]
            | ok answers =>
              rw [hpa] at hpl
              simp [nonEmptyStr, exceptOk, hsub, hu, ha, hpa, hue, ← hpl]

/-! ### Error localization (C6): each error names the first
missing/malformed required field and its position -/

/-- What an option-level error reports about the option value at
(question `k`, option index `idx`): the right indices and the first
failing field of that option. -/
def optErrAt (o : GoVal) (k idx : Nat) : ParseErr → Prop
  | .optionNotObject kk jj => kk = k ∧ jj = idx ∧ isObjB o = false
  | .optionIdRequired kk jj => kk = k ∧ jj = idx ∧
      ∃ f, o = .obj f ∧ nonEmptyStr (getStr f "id") = false
  | .optionTextRequired kk jj => kk = k ∧ jj = idx ∧
      ∃ f, o = .obj f ∧ nonEmptyStr (getStr f "id") = true ∧
        nonEmptyStr (getStr f "text") = false
  | _ => False

/-- An option-level error inside question `idx`: the question's own
fields are fine, its `options` array is present, all options before
some index `t` are well-formed, and the error reports option `t`. -/
def optErrInQuestion (q : GoVal) (idx : Nat) (e : ParseErr) : Prop :=
  ∃ f, q = .obj f ∧
    nonEmptyStr (getStr f "id") = true ∧ nonEmptyStr (getStr f "text") = true ∧
    nonEmptyStr (getStr f "type") = true ∧
    ∃ opts, getArr f "options" = some opts ∧
      ∃ t, t < opts.length ∧ (∀ u, u < t → optionClaimOk (opts.getD u .null) = true) ∧
        optErrAt (opts.getD t .null) idx t e

/-- What a question-level error reports about the question value at
index `idx`: the right index and the first failing field, in source
check order (id, text, type, then options). -/
def qErrAt (q : GoVal) (idx : Nat) : ParseErr → Prop
  | .questionNotObject k => k = idx ∧ isObjB q = false
  | .questionIdRequired k => k = idx ∧
      ∃ f, q = .obj f ∧ nonEmptyStr (getStr f "id") = false
  | .questionTextRequired k => k = idx ∧
      ∃ f, q = .obj f ∧ nonEmptyStr (getStr f "id") = true ∧
        nonEmptyStr (getStr f "text") = false
  | .questionTypeRequired k => k = idx ∧
      ∃ f, q = .obj f ∧ nonEmptyStr (getStr f "id") = true ∧
        nonEmptyStr (getStr f "text") = true ∧ nonEmptyStr (getStr f "type") = false
  | e => optErrInQuestion q idx e

/-- What a `ParseSurveyRecord` error reports about the record: the
checks before the failing one pass, and the error names the first
failing field with its question/option position. -/
def surveyErrLocates (r : List (String × GoVal)) : ParseErr → Prop
  | .surveyNameRequired => nonEmptyStr (getStr r "name") = false
  | .surveyNeedsQuestion => nonEmptyStr (getStr r "name") = true ∧
      (getArr r "questions" = none ∨ getArr r "questions" = some [])
  | e => nonEmptyStr (getStr r "name") = true ∧
      ∃ qs, getArr r "questions" = some qs ∧
        ∃ t, t < qs.length ∧ (∀ u, u < t → questionClaimOk (qs.getD u .null) = true) ∧
          qErrAt (qs.getD t .null) t e

/-- A failing `parseOption` reports this option's first bad field. -/
theorem parseOption_error (f : List (String × GoVal)) (qI oI : Nat) (e : ParseErr)
    (h : parseOption f qI oI = .error e) : optErrAt (.obj f) qI oI e := by
  unfold parseOption at h
  split at h
  · rename_i hid
    cases h
    exact ⟨rfl, rfl, f, rfl, by simp [nonEmptyStr, hid]⟩
  · rename_i id hid
    split at h
    · rename_i hide
      cases h
      exact ⟨rfl, rfl, f, rfl, by simp [nonEmptyStr, hid, hide]⟩
    · rename_i hidne
      split at h
      · rename_i htx
        cases h
        exact ⟨rfl, rfl, f, rfl, by simp [nonEmptyStr, hid, hidne],
               by simp [nonEmptyStr, htx]⟩
      · rename_i tx htx
        split at h
        · rename_i htxe
          cases h
          exact ⟨rfl, rfl, f, rfl, by simp [nonEmptyStr, hid, hidne],
                 by simp [nonEmptyStr, htx, htxe]⟩
        · exact absurd h (by simp)

/-- A failing options loop reports the first bad option, with all
options before it well-formed and the loop's absolute index. -/
theorem parseOptionList_error (qI : Nat) (opts : List GoVal) :
    ∀ (j : Nat) (e : ParseErr), parseOptionList qI j opts = .error e →
      ∃ t, t < opts.length ∧ (∀ u, u < t → optionClaimOk (opts.getD u .null) = true) ∧
        optErrAt (opts.getD t .null) qI (j + t) e := by
  induction opts with
  | nil => intro j e h; exact absurd h (by simp [parseOptionList])
  | cons o rest ih =>
    intro j e h
    match o with
    | .obj f =>
      simp only [parseOptionList] at h
      cases hpo : parseOption f qI j with
      | error e' =>
        rw [hpo] at h
        simp only at h
        cases h
        refine ⟨0, by simp, fun u hu => absurd hu (by omega), ?_⟩
        simpa using parseOption_error f qI j e hpo
      | ok opt =>
        rw [hpo] at h
        simp only at h
        cases hpl : parseOptionList qI (j + 1) rest with
        | error e2 =>
          rw [hpl] at h
          simp only at h
          cases h
          obtain ⟨t, ht, hpri, herr⟩ := ih (j + 1) e hpl
          refine ⟨t + 1, by simpa using ht, ?_, ?_⟩
          · intro u hu
            cases u with
            | zero =>
              have := parseOption_ok f qI j
              rw [hpo] at this
              simpa [List.getD_cons_zero] using this.symm
            | succ u' =>
              simp only [List.getD_cons_succ]
              exact hpri u' (by omega)
          · simp only [List.getD_cons_succ]
            have harith : j + (t + 1) = (j + 1) + t := by omega
            rw [harith]
            exact herr
        | ok opts' => rw [hpl] at h; exact absurd h (by simp)
    | .str s =>
      simp only [parseOptionList] at h
      cases h
      exact ⟨0, by simp, fun u hu => absurd hu (by omega), rfl, by omega, rfl⟩
    | .bool b =>
      simp only [parseOptionList] at h
      cases h
      exact ⟨0, by simp, fun u hu => absurd hu (by omega), rfl, by omega, rfl⟩
    | .num n =>
      simp only [parseOptionList] at h
      cases h
      exact ⟨0, by simp, fun u hu => absurd hu (by omega), rfl, by omega, rfl⟩
    | .arr es =>
      simp only [parseOptionList] at h
      cases h
      exact ⟨0, by simp, fun u hu => absurd hu (by omega), rfl, by omega, rfl⟩
    | .null =>
      simp only [parseOptionList] at h
      cases h
      exact ⟨0, by simp, fun u hu => absurd hu (by omega), rfl, by omega, rfl⟩

/-- Lift an option-level localization into the question-level one. -/
theorem qErrAt_of_optErrInQuestion (q : GoVal) (idx : Nat) (e : ParseErr)
    (h : optErrInQuestion q idx e) : qErrAt q idx e := by
  cases e <;> first
    | exact h
    | (obtain ⟨f, hqf, h1, h2, h3, opts, hop, t, ht, hpri, hfalse⟩ := h; exact hfalse.elim)

/-- A failing `parseQuestion` reports this question's first bad field
(or the first bad option inside it). -/
theorem parseQuestion_error (f : List (String × GoVal)) (i : Nat) (e : ParseErr)
    (h : parseQuestion f i = .error e) : qErrAt (.obj f) i e := by
  unfold parseQuestion at h
  split at h
  · rename_i hid
    cases h
    exact ⟨rfl, f, rfl, by simp [nonEmptyStr, hid]⟩
  · rename_i id hid
    split at h
    · rename_i hide
      cases h
      exact ⟨rfl, f, rfl, by simp [nonEmptyStr, hid, hide]⟩
    · rename_i hidne
      have hidok : nonEmptyStr (getStr f "id") = true := by simp [nonEmptyStr, hid, hidne]
      split at h
      · rename_i htx
        cases h
        exact ⟨rfl, f, rfl, hidok, by simp [nonEmptyStr, htx]⟩
      · rename_i tx htx
        split at h
        · rename_i htxe
          cases h
          exact ⟨rfl, f, rfl, hidok, by simp [nonEmptyStr, htx, htxe]⟩
        · rename_i htxne
          have htxok : nonEmptyStr (getStr f "text") = true := by
            simp [nonEmptyStr, htx, htxne]
          split at h
          · rename_i hty
            cases h
            exact ⟨rfl, f, rfl, hidok, htxok, by simp [nonEmptyStr, hty]⟩
          · rename_i ty hty
            split at h
            · rename_i htye
              cases h
              exact ⟨rfl, f, rfl, hidok, htxok, by simp [nonEmptyStr, hty, htye]⟩
            · rename_i htyne
              have htyok : nonEmptyStr (getStr f "type") = true := by
                simp [nonEmptyStr, hty, htyne]
              split at h
              · exact absurd h (by simp)
              · rename_i opts hop
                cases hpl : parseOptionList i 0 opts with
                | error e2 =>
                  rw [hpl] at h
                  simp only at h
                  cases h
                  apply qErrAt_of_optErrInQuestion
                  obtain ⟨t, ht, hpri, herr⟩ := parseOptionList_error i opts 0 e hpl
                  exact ⟨f, rfl, hidok, htxok, htyok, opts, hop, t, ht, hpri,
                         by simpa using herr⟩
                | ok os => rw [hpl] at h; exact absurd h (by simp)

/-- A failing questions loop reports the first bad question, with all
questions before it well-formed and the loop's absolute index. -/
theorem parseQuestionList_error (qs : List GoVal) :
    ∀ (i : Nat) (e : ParseErr), parseQuestionList i qs = .error e →
      ∃ t, t < qs.length ∧ (∀ u, u < t → questionClaimOk (qs.getD u .null) = true) ∧
        qErrAt (qs.getD t .null) (i + t) e := by
  induction qs with
  | nil => intro i e h; exact absurd h (by simp [parseQuestionList])
  | cons q rest ih =>
    intro i e h
    match q with
    | .obj f =>
      simp only [parseQuestionList] at h
      cases hpq : parseQuestion f i with
      | error e' =>
        rw [hpq] at h
        simp only at h
        cases h
        refine ⟨0, by simp, fun u hu => absurd hu (by omega), ?_⟩
        simpa using parseQuestion_error f i e hpq
      | ok question =>
        rw [hpq] at h
        simp only at h
        cases hpl : parseQuestionList (i + 1) rest with
        | error e2 =>
          rw [hpl] at h
          simp only at h
          cases h
          obtain ⟨t, ht, hpri, herr⟩ := ih (i + 1) e hpl
          refine ⟨t + 1, by simpa using ht, ?_, ?_⟩
          · intro u hu
            cases u with
            | zero =>
              have := parseQuestion_ok f i
              rw [hpq] at this
              simpa [List.getD_cons_zero] using this.symm
            | succ u' =>
              simp only [List.getD_cons_succ]
              exact hpri u' (by omega)
          · simp only [List.getD_cons_succ]
            have harith : i + (t + 1) = (i + 1) + t := by omega
            rw [harith]
            exact herr
        | ok questions => rw [hpl] at h; exact absurd h (by simp)
    | .str s =>
      simp only [parseQuestionList] at h
      cases h
      exact ⟨0, by simp, fun u hu => absurd hu (by omega), by omega, rfl⟩
    | .bool b =>
      simp only [parseQuestionList] at h
      cases h
      exact ⟨0, by simp, fun u hu => absurd hu (by omega), by omega, rfl⟩
    | .num n =>
      simp only [parseQuestionList] at h
      cases h
      exact ⟨0, by simp, fun u hu => absurd hu (by omega), by omega, rfl⟩
    | .arr es =>
      simp only [parseQuestionList] at h
      cases h
      exact ⟨0, by simp, fun u hu => absurd hu (by omega), by omega, rfl⟩
    | .null =>
      simp only [parseQuestionList] at h
      cases h
      exact ⟨0, by simp, fun u hu => absurd hu (by omega), by omega, rfl⟩

/-- Assemble a question-level localization into the record-level one. -/
theorem surveyErrLocates_of_questions (r : List (String × GoVal)) (e : ParseErr)
    (qs : List GoVal) (hn : nonEmptyStr (getStr r "name") = true)
    (hq : getArr r "questions" = some qs) (t : Nat) (ht : t < qs.length)
    (hpri : ∀ u, u < t → questionClaimOk (qs.getD u .null) = true)
    (herr : qErrAt (qs.getD t .null) t e) : surveyErrLocates r e := by
  cases e <;> first
    | exact ⟨hn, qs, hq, t, ht, hpri, herr⟩
    | (obtain ⟨f, hqf, h1, h2, h3, opts, hop, t', ht', hpri', hfalse⟩ := herr;
       exact hfalse.elim)

/-- A failing `ParseSurveyRecord` identifies the first missing or
malformed required field, with its question/option index. -/
theorem ParseSurveyRecord_error (r : List (String × GoVal)) (e : ParseErr)
    (h : ParseSurveyRecord r = .error e) : surveyErrLocates r e := by
  unfold ParseSurveyRecord at h
  split at h
  · rename_i hn
    cases h
    show nonEmptyStr (getStr r "name") = false
    simp [nonEmptyStr, hn]
  · rename_i name hn
    split at h
    · rename_i hne
      cases h
      show nonEmptyStr (getStr r "name") = false
      simp [nonEmptyStr, hn, hne]
    · rename_i hnne
      have hnok : nonEmptyStr (getStr r "name") = true := by simp [nonEmptyStr, hn, hnne]
      split at h
      · rename_i hq
        cases h
        exact ⟨hnok, Or.inl hq⟩
      · rename_i hq
        cases h
        exact ⟨hnok, Or.inr hq⟩
      · rename_i qs hqne hq
        cases hpl : parseQuestionList 0 qs with
        | error e2 =>
          rw [hpl] at h
          simp only at h
          cases h
          obtain ⟨t, ht, hpri, herr⟩ := parseQuestionList_error qs 0 e hpl
          exact surveyErrLocates_of_questions r e qs hnok hq t ht hpri (by simpa using herr)
        | ok questions => rw [hpl] at h; exact absurd h (by simp)

/-- What an answer-level error reports about the answer value at
index `idx`: the right index and the first failing field, in source
check order (questionId, selectedOptions, text). -/
def ansErrAt (a : GoVal) (idx : Nat) : ParseErr → Prop
  | .answerNotObject k => k = idx ∧ isObjB a = false
  | .answerQuestionIdRequired k => k = idx ∧
      ∃ f, a = .obj f ∧ nonEmptyStr (getStr f "questionId") = false
  | .answerSelectedNotArray k => k = idx ∧
      ∃ f, a = .obj f ∧ nonEmptyStr (getStr f "questionId") = true ∧
        ∃ v, getVal f "selectedOptions" = some v ∧ ¬∃ xs, v = .arr xs
  | .answerOptionNotString k j => k = idx ∧
      ∃ f, a = .obj f ∧ nonEmptyStr (getStr f "questionId") = true ∧
        ∃ xs, getVal f "selectedOptions" = some (.arr xs) ∧ j < xs.length ∧
          (∀ u, u < j → isStrB (xs.getD u .null) = true) ∧ isStrB (xs.getD j .null) = false
  | .answerTextNotString k => k = idx ∧
      ∃ f, a = .obj f ∧ nonEmptyStr (getStr f "questionId") = true ∧
        ansSelOk f = true ∧ ∃ v, getVal f "text" = some v ∧ isStrB v = false
  | _ => False

/-- What a `ParseResponseRecord` error reports about the record: the
checks before the failing one pass, and the error names the first
failing field with its answer/option position. -/
def respErrLocates (r : List (String × GoVal)) : ParseErr → Prop
  | .subjectRequired => getObj r "subject" = none
  | .subjectUriRequired =>
      ∃ sub, getObj r "subject" = some sub ∧ nonEmptyStr (getStr sub "uri") = false
  | .answersRequired =>
      (∃ sub, getObj r "subject" = some sub ∧ nonEmptyStr (getStr sub "uri") = true) ∧
      (getArr r "answers" = none ∨ getArr r "answers" = some [])
  | e =>
      (∃ sub, getObj r "subject" = some sub ∧ nonEmptyStr (getStr sub "uri") = true) ∧
      ∃ as, getArr r "answers" = some as ∧
        ∃ t, t < as.length ∧ (∀ u, u < t → answerClaimOk (as.getD u .null) = true) ∧
          ansErrAt (as.getD t .null) t e

/-- A failing selected-option loop reports the first non-string
element, with its absolute index. -/
theorem parseSelectedList_error (i : Nat) (xs : List GoVal) :
    ∀ (j : Nat) (e : ParseErr), parseSelectedList i j xs = .error e →
      ∃ t, t < xs.length ∧ (∀ u, u < t → isStrB (xs.getD u .null) = true) ∧
        isStrB (xs.getD t .null) = false ∧ e = .answerOptionNotString i (j + t) := by
  induction xs with
  | nil => intro j e h; exact absurd h (by simp [parseSelectedList])
  | cons x rest ih =>
    intro j e h
    match x with
    | .str s =>
      simp only [parseSelectedList] at h
      cases hps : parseSelectedList i (j + 1) rest with
      | error e2 =>
        rw [hps] at h
        simp only at h
        cases h
        obtain ⟨t, ht, hpri, hbad, heq⟩ := ih (j + 1) e hps
        refine ⟨t + 1, by simpa using ht, ?_, ?_, ?_⟩
        · intro u hu
          cases u with
          | zero => rfl
          | succ u' =>
            simp only [List.getD_cons_succ]
            exact hpri u' (by omega)
        · simpa only [List.getD_cons_succ] using hbad
        · rw [heq]
          congr 1
          omega
      | ok sel => rw [hps] at h; exact absurd h (by simp)
    | .obj g =>
      simp only [parseSelectedList] at h
      cases h
      exact ⟨0, by simp, fun u hu => absurd hu (by omega), rfl, by rw [Nat.add_zero]⟩
    | .bool b =>
      simp only [parseSelectedList] at h
      cases h
      exact ⟨0, by simp, fun u hu => absurd hu (by omega), rfl, by rw [Nat.add_zero]⟩
    | .num n =>
      simp only [parseSelectedList] at h
      cases h
      exact ⟨0, by simp, fun u hu => absurd hu (by omega), rfl, by rw [Nat.add_zero]⟩
    | .arr es =>
      simp only [parseSelectedList] at h
      cases h
      exact ⟨0, by simp, fun u hu => absurd hu (by omega), rfl, by rw [Nat.add_zero]⟩
    | .null =>
      simp only [parseSelectedList] at h
      cases h
      exact ⟨0, by simp, fun u hu => absurd hu (by omega), rfl, by rw [Nat.add_zero]⟩

/-- A failing `parseAnswer` reports this answer's first bad field. -/
theorem parseAnswer_error (f : List (String × GoVal)) (i : Nat) (e : ParseErr)
    (h : parseAnswer f i = .error e) : ansErrAt (.obj f) i e := by
  unfold parseAnswer at h
  split at h
  · rename_i hqid
    cases h
    exact ⟨rfl, f, rfl, by simp [nonEmptyStr, hqid]⟩
  · rename_i qid hqid
    split at h
    · rename_i hqe
      cases h
      exact ⟨rfl, f, rfl, by simp [nonEmptyStr, hqid, hqe]⟩
    · rename_i hqne
      have hqok : nonEmptyStr (getStr f "questionId") = true := by
        simp [nonEmptyStr, hqid, hqne]
      split at h
      · rename_i v hsel
        cases v with
        | arr xs =>
          simp only at h
          cases hps : parseSelectedList i 0 xs with
          | error e2 =>
            rw [hps] at h
            simp only at h
            cases h
            obtain ⟨t, ht, hpri, hbad, heq⟩ := parseSelectedList_error i xs 0 e hps
            rw [heq]
            exact ⟨rfl, f, rfl, hqok, xs, hsel, by simpa using ht,
                   by simpa using hpri, by simpa using hbad⟩
          | ok sel =>
            rw [hps] at h
            simp only at h
            have hselok : ansSelOk f = true := by
              have := parseSelectedList_ok i xs 0
              rw [hps] at this
              simp [ansSelOk, hsel, ← this, exceptOk]
            split at h
            · rename_i tv htv
              cases tv with
              | str t => simp only at h; exact absurd h (by simp)
              | obj g =>
                simp only at h
                cases h
                exact ⟨rfl, f, rfl, hqok, hselok, .obj g, htv, rfl⟩
              | bool b =>
                simp only at h
                cases h
                exact ⟨rfl, f, rfl, hqok, hselok, .bool b, htv, rfl⟩
              | num n =>
                simp only at h
                cases h
                exact ⟨rfl, f, rfl, hqok, hselok, .num n, htv, rfl⟩
              | arr es =>
                simp only at h
                cases h
                exact ⟨rfl, f, rfl, hqok, hselok, .arr es, htv, rfl⟩
              | null =>
                simp only at h
                cases h
                exact ⟨rfl, f, rfl, hqok, hselok, .null, htv, rfl⟩
            · exact absurd h (by simp)
        | str s =>
          simp only at h
          cases h
          exact ⟨rfl, f, rfl, hqok, .str s, hsel, by simp⟩
        | obj g =>
          simp only at h
          cases h
          exact ⟨rfl, f, rfl, hqok, .obj g, hsel, by simp⟩
        | bool b =>
          simp only at h
          cases h
          exact ⟨rfl, f, rfl, hqok, .bool b, hsel, by simp⟩
        | num n =>
          simp only at h
          cases h
          exact ⟨rfl, f, rfl, hqok, .num n, hsel, by simp⟩
        | null =>
          simp only at h
          cases h
          exact ⟨rfl, f, rfl, hqok, .null, hsel, by simp⟩
      · rename_i hsel
        have hselok : ansSelOk f = true := by simp [ansSelOk, hsel]
        split at h
        · rename_i tv htv
          cases tv with
          | str t => simp only at h; exact absurd h (by simp)
          | obj g =>
            simp only at h
            cases h
            exact ⟨rfl, f, rfl, hqok, hselok, .obj g, htv, rfl⟩
          | bool b =>
            simp only at h
            cases h
            exact ⟨rfl, f, rfl, hqok, hselok, .bool b, htv, rfl⟩
          | num n =>
            simp only at h
            cases h
            exact ⟨rfl, f, rfl, hqok, hselok, .num n, htv, rfl⟩
          | arr es =>
            simp only at h
            cases h
            exact ⟨rfl, f, rfl, hqok, hselok, .arr es, htv, rfl⟩
          | null =>
            simp only at h
            cases h
            exact ⟨rfl, f, rfl, hqok, hselok, .null, htv, rfl⟩
        · exact absurd h (by simp)

/-- A failing answers loop reports the first bad answer, with all
answers before it well-formed and the loop's absolute index. -/
theorem parseAnswerList_error (xs : List GoVal) :
    ∀ (i : Nat) (acc : List (String × Answer)) (e : ParseErr),
      parseAnswerList i acc xs = .error e →
      ∃ t, t < xs.length ∧ (∀ u, u < t → answerClaimOk (xs.getD u .null) = true) ∧
        ansErrAt (xs.getD t .null) (i + t) e := by
  induction xs with
  | nil => intro i acc e h; exact absurd h (by simp [parseAnswerList])
  | cons x rest ih =>
    intro i acc e h
    match x with
    | .obj f =>
      simp only [parseAnswerList] at h
      cases hpa : parseAnswer f i with
      | error e' =>
        rw [hpa] at h
        simp only at h
        cases h
        refine ⟨0, by simp, fun u hu => absurd hu (by omega), ?_⟩
        simpa using parseAnswer_error f i e hpa
      | ok pair =>
        rw [hpa] at h
        simp only at h
        obtain ⟨t, ht, hpri, herr⟩ := ih (i + 1) (mapUpsert acc pair.1 pair.2) e h
        refine ⟨t + 1, by simpa using ht, ?_, ?_⟩
        · intro u hu
          cases u with
          | zero =>
            have := parseAnswer_ok f i
            rw [hpa] at this
            simpa [List.getD_cons_zero] using this.symm
          | succ u' =>
            simp only [List.getD_cons_succ]
            exact hpri u' (by omega)
        · simp only [List.getD_cons_succ]
          have harith : i + (t + 1) = (i + 1) + t := by omega
          rw [harith]
          exact herr
    | .str s =>
      simp only [parseAnswerList] at h
      cases h
      exact ⟨0, by simp, fun u hu => absurd hu (by omega), by omega, rfl⟩
    | .bool b =>
      simp only [parseAnswerList] at h
      cases h
      exact ⟨0, by simp, fun u hu => absurd hu (by omega), by omega, rfl⟩
    | .num n =>
      simp only [parseAnswerList] at h
      cases h
      exact ⟨0, by simp, fun u hu => absurd hu (by omega), by omega, rfl⟩
    | .arr es =>
      simp only [parseAnswerList] at h
      cases h
      exact ⟨0, by simp, fun u hu => absurd hu (by omega), by omega, rfl⟩
    | .null =>
      simp only [parseAnswerList] at h
      cases h
      exact ⟨0, by simp, fun u hu => absurd hu (by omega), by omega, rfl⟩

/-- Assemble an answer-level localization into the record-level one. -/
theorem respErrLocates_of_answers (r : List (String × GoVal)) (e : ParseErr)
    (hsub : ∃ sub, getObj r "subject" = some sub ∧ nonEmptyStr (getStr sub "uri") = true)
    (as : List GoVal) (ha : getArr r "answers" = some as) (t : Nat) (ht : t < as.length)
    (hpri : ∀ u, u < t → answerClaimOk (as.getD u .null) = true)
    (herr : ansErrAt (as.getD t .null) t e) : respErrLocates r e := by
  cases e <;> first
    | exact ⟨hsub, as, ha, t, ht, hpri, herr⟩
    | exact herr.elim

/-- A failing `ParseResponseRecord` identifies the first missing or
malformed required field, with its answer (and selected-option)
index. -/
theorem ParseResponseRecord_error (r : List (String × GoVal)) (e : ParseErr)
    (h : ParseResponseRecord r = .error e) : respErrLocates r e := by
  unfold ParseResponseRecord at h
  split at h
  · rename_i hsub
    cases h
    exact hsub
  · rename_i subject hsub
    split at h
    · rename_i hu
      cases h
      exact ⟨subject, hsub, by simp [nonEmptyStr, hu]⟩
    · rename_i u hu
      split at h
      · rename_i hue
        cases h
        exact ⟨subject, hsub, by simp [nonEmptyStr, hu, hue]⟩
      · rename_i hune
        have hsubok : ∃ sub, getObj r "subject" = some sub ∧
            nonEmptyStr (getStr sub "uri") = true :=
          ⟨subject, hsub, by simp [nonEmptyStr, hu, hune]⟩
        split at h
        · rename_i ha
          cases h
          exact ⟨hsubok, Or.inl ha⟩
        · rename_i ha
          cases h
          exact ⟨hsubok, Or.inr ha⟩
        · rename_i as hane ha
          cases hpl : parseAnswerList 0 [] as with
          | error e2 =>
            rw [hpl] at h
            simp only at h
            cases h
            obtain ⟨t, ht, hpri, herr⟩ := parseAnswerList_error as 0 [] e hpl
            exact respErrLocates_of_answers r e hsubok as ha t ht hpri (by simpa using herr)
          | ok answers => rw [hpl] at h; exact absurd h (by simp)

/-- Claim C6 as amended: `ParseSurveyRecord` succeeds exactly when the
record has a non-empty `name` and a non-empty `questions` array whose
questions all have non-empty `id`, `text`, `type` and well-formed
listed options; `ParseResponseRecord` succeeds exactly when the record
has a (non-empty) `subject.uri` and a non-empty `answers` array in
which every answer has a non-empty `questionId` AND a type-correct
`selectedOptions`/`text` field when present; and every failure's error
identifies the first missing/malformed required field together with
its question/option or answer position. -/
theorem c6_decode_success_characterization :
    (∀ r, exceptOk (ParseSurveyRecord r) = surveyClaimOk r) ∧
    (∀ r, exceptOk (ParseResponseRecord r) = responseClaimOk r) ∧
    (∀ r e, ParseSurveyRecord r = .error e → surveyErrLocates r e) ∧
    (∀ r e, ParseResponseRecord r = .error e → respErrLocates r e) :=
  ⟨ParseSurveyRecord_ok, ParseResponseRecord_ok,
   ParseSurveyRecord_error, ParseResponseRecord_error⟩

/-- Witness for the amended C6: success characterizations at concrete
records, and the localization of a concrete failure (question 0 missing
its `id`, and an answer 0 whose `selectedOptions` is not an array). -/
theorem c6_decode_success_characterization_witness :
    exceptOk (ParseSurveyRecord
      [("name", .str "Coffee"),
       ("questions", .arr [.obj [("id", .str "q1"), ("text", .str "Like coffee?"),
                                 ("type", .str "net.openmeet.survey#single")]])]) =
      surveyClaimOk
        [("name", .str "Coffee"),
         ("questions", .arr [.obj [("id", .str "q1"), ("text", .str "Like coffee?"),
                                   ("type", .str "net.openmeet.survey#single")]])] ∧
    surveyErrLocates
      [("name", .str "X"), ("questions", .arr [.obj [("text", .str "t")]])]
      (.questionIdRequired 0) ∧
    respErrLocates
      [("subject", .obj [("uri", .str "at://a/net.openmeet.survey/s")]),
       ("answers", .arr [.obj [("questionId", .str "q1"),
                               ("selectedOptions", .str "oops")]])]
      (.answerSelectedNotArray 0) :=
  ⟨c6_decode_success_characterization.1
     [("name", .str "Coffee"),
      ("questions", .arr [.obj [("id", .str "q1"), ("text", .str "Like coffee?"),
                                ("type", .str "net.openmeet.survey#single")]])],
   c6_decode_success_characterization.2.2.1
     [("name", .str "X"), ("questions", .arr [.obj [("text", .str "t")]])]
     (.questionIdRequired 0) rfl,
   c6_decode_success_characterization.2.2.2
     [("subject", .obj [("uri", .str "at://a/net.openmeet.survey/s")]),
      ("answers", .arr [.obj [("questionId", .str "q1"),
                              ("selectedOptions", .str "oops")]])]
     (.answerSelectedNotArray 0) rfl⟩
